import Mathlib

/-!
Shallow embedding of the listening-profile analytics core of the
spotify-documentary repository (transformer.ts, identity-profile.ts,
emotional-profile.ts, nocturnal-analysis.ts).

Modelling conventions:
* JS numbers are modelled as rationals; quantities that genuinely require
  square roots or base-2 logarithms (standard deviations, Shannon entropy)
  live in the reals.
* A JS `Map` is modelled as an insertion-ordered association list
  (`jsSet` keeps the position of an existing key and appends new keys,
  matching the iteration order guaranteed for `Map`).
* `Array.prototype.sort` with the comparator `(a, b) => b.key - a.key` is
  modelled as a stable insertion sort in descending key order; ES2019
  requires the builtin sort to be stable.
* ISO-8601 timestamps are kept as strings; `new Date(ts).getHours()` is
  modelled as reading the two hour digits of the ISO string (UTC reading),
  and `toDateString()` as taking the 10-character date prefix.
* The single clock read `new Date().toISOString()` (fallback for a missing
  timestamp in the energy arc) is modelled as an explicit `now` argument.
* JS `x || y` on numbers and strings (fallback on falsy values) is
  modelled by `jsOrQ` and `jsOrS`.
* Rational division by zero is `0` in Lean while JS produces a non-finite
  number (`NaN` for `0/0`, signed infinity otherwise). Where a statement's
  domain can reach a zero divisor, the division is read through the partial
  `jsDiv`, whose `none` stands for those non-finite results; elsewhere the
  divisors are positive on the inputs the theorems speak about and the two
  readings agree.
-/

/-- JS `x || y` for numbers: `y` when `x` is `0` (falsy), else `x`. -/
def jsOrQ (x y : ℚ) : ℚ := if x = 0 then y else x

/-- JS `x || y` for strings: `y` when `x` is the empty string (falsy), else `x`. -/
def jsOrS (x y : String) : String := if x = "" then y else x

/-- JS division as a partial rational: a zero divisor produces no rational
value (`0/0` is `NaN`, a nonzero numerator gives a signed infinity). -/
def jsDiv (x y : ℚ) : Option ℚ := if y = 0 then none else some (x / y)

/-- Mean of a list of rationals, `0` for the empty list (util `average`). -/
def average (values : List ℚ) : ℚ :=
  if values = [] then 0 else values.sum / values.length

/-- Population standard deviation (util `standardDeviation`): square root of
the mean squared deviation, `0` for the empty list. -/
noncomputable def standardDeviation (values : List ℚ) : ℝ :=
  if values = [] then 0
  else Real.sqrt (((values.map (fun v => (v - average values) ^ 2)).sum / values.length : ℚ) : ℝ)

section JsMap

variable {κ : Type} {α : Type} {β : Type} [DecidableEq κ]

/-- JS `Map.prototype.set`: overwrite in place when the key exists
(keeping its position), append otherwise. -/
def jsSet : List (κ × β) → κ → β → List (κ × β)
  | [], k, v => [(k, v)]
  | (k', v') :: rest, k, v =>
      if k' = k then (k, v) :: rest else (k', v') :: jsSet rest k v

/-- JS `Map.prototype.get`. -/
def jsGet : List (κ × β) → κ → Option β
  | [], _ => none
  | (k', v) :: rest, k => if k' = k then some v else jsGet rest k

/-- The keys of the modelled map, in iteration order. -/
def jsKeys (m : List (κ × β)) : List κ := m.map Prod.fst

/-- The values of the modelled map, in iteration order. -/
def jsValues (m : List (κ × β)) : List β := m.map Prod.snd

/-- The accumulation pattern used throughout the source: iterate over a
list and update the entry of `key x` from its current value. -/
def jsAccum (key : α → κ) (upd : Option β → α → β) (m : List (κ × β)) (L : List α) :
    List (κ × β) :=
  L.foldl (fun m x => jsSet m (key x) (upd (jsGet m (key x)) x)) m

/-- Deduplication keeping the first occurrence of each key, in order. -/
def dedupFirst : List κ → List κ
  | [] => []
  | k :: rest => k :: dedupFirst (rest.filter fun k2 => decide (k2 ≠ k))
termination_by l => l.length
decreasing_by
  simp only [List.length_cons]
  exact Nat.lt_succ_of_le (List.length_filter_le _ _)

end JsMap

section StableSort

variable {α : Type}

/-- Insert an element into a list already sorted by descending key,
after every element whose key is at least as large (stability). -/
def insertDesc (keyf : α → ℚ) (x : α) : List α → List α
  | [] => [x]
  | y :: ys => if keyf x < keyf y then y :: insertDesc keyf x ys else x :: y :: ys

/-- Stable sort by descending key; model of JS
`arr.sort((a, b) => b.key - a.key)` (ES2019 sorts are stable). -/
def sortDesc (keyf : α → ℚ) : List α → List α
  | [] => []
  | x :: xs => insertDesc keyf x (sortDesc keyf xs)

end StableSort

/-! ## Data model (types/spotify-analysis.ts)

Auxiliary provider fields that no embedded function reads (album art,
external urls, the passthrough acoustic fields, play context) are omitted
from the records. -/

structure SpotifyArtist where
  id : String
  name : String
  genres : List String
  popularity : ℚ
deriving DecidableEq, Repr

structure SpotifyTrack where
  id : String
  name : String
  artists : List SpotifyArtist
  duration_ms : ℚ
deriving DecidableEq, Repr

structure SpotifyAudioFeatures where
  id : String
  valence : ℚ
  energy : ℚ
  tempo : ℚ
deriving DecidableEq, Repr

structure SpotifyPlayHistory where
  track : SpotifyTrack
  played_at : String
deriving DecidableEq, Repr

structure GenreWeight where
  name : String
  weight : ℚ
  percentage : ℚ
deriving DecidableEq, Repr

structure TimeSeriesPoint where
  date : String
  valence : ℚ
  energy : ℚ
  tempo : ℚ
  isCopingCluster : Bool
deriving DecidableEq, Repr

/-- `TimeRange`; the source field `end` is a Lean keyword and is rendered
as `stop`. -/
structure TimeRange where
  start : String
  stop : String
  valence : ℚ
  repeatCount : ℕ
deriving DecidableEq, Repr

structure CopingSignal where
  type : String
  severity : ℝ
  description : String
  evidence : List String

structure EmotionalProfile where
  valenceVolatility : ℝ
  energyArc : List TimeSeriesPoint
  melancholyClusters : List TimeRange
  copingIndicators : List CopingSignal
  stabilityScore : ℝ
  oscillationPattern : ℚ
  psychologicalState : String
  averageValence : ℚ
  averageEnergy : ℚ

structure RepeatLoop where
  trackId : String
  trackName : String
  count : ℕ
  avgValence : ℚ
  timestamps : List String
deriving DecidableEq, Repr

structure NocturnalProfile where
  nightOwlScore : ℚ
  nightRatio : ℚ
  nightValence : ℚ
  averageNightValence : ℚ
  sadnessLoops : List RepeatLoop
  loops : List RepeatLoop
  insomniaIndicators : Bool
  confrontation : String
deriving DecidableEq, Repr

structure QuarterlyListening where
  period : String
  topGenres : List GenreWeight
  mainstreamPercentage : ℚ
  averageValence : ℚ
  averageEnergy : ℚ
  topTracks : List SpotifyTrack
deriving DecidableEq, Repr

structure PhaseTransition where
  quarter : String
  beforeEntropy : ℝ
  afterEntropy : ℝ
  topGenreBefore : String
  topGenreAfter : String
  trigger : String
  psychologicalReading : String

structure IdentityProfile where
  claimedGenres : List String
  actualTopGenres : List GenreWeight
  mainstreamPercentage : ℚ
  hipsterScore : ℚ
  topArtists : List SpotifyArtist
  artistDiversity : ℚ
deriving DecidableEq, Repr

structure ObsessionEvent where
  trackId : String
  trackName : String
  artistName : String
  playCount : ℕ
  timeRange : TimeRange
  isNightTime : Bool

structure BpmRange where
  min : ℚ
  max : ℚ

structure ComfortZoneMetrics where
  bpmVariance : ℝ
  genreEntropy : ℝ
  artistLoyalty : ℚ
  bpmRange : BpmRange

structure TemporalProfile where
  totalListeningTime : ℤ
  activeDays : ℕ
  peakListeningHour : ℕ
  quarterlyBreakdown : List QuarterlyListening
deriving DecidableEq, Repr

structure BehavioralProfile where
  circadianPatterns : NocturnalProfile
  obsessionLoops : List ObsessionEvent
  phaseShifts : List PhaseTransition
  comfortZoneMetrics : ComfortZoneMetrics

structure ListeningProfile where
  identity : IdentityProfile
  emotional : EmotionalProfile
  behavioral : BehavioralProfile
  temporal : TemporalProfile

/-! ## GenreAggregator (identity-profile.ts `aggregateGenres`,
transformer.ts `aggregateGenresFromArtists`) -/

/-- The per-artist genre/weight contributions in iteration order, starting
at artist index `i`: the artist at index `i` contributes weight
`1 / (i + 1)` to each of its genre tags. -/
def genreContributionsFrom (i : ℕ) : List SpotifyArtist → List (String × ℚ)
  | [] => []
  | a :: rest =>
      (a.genres.map fun g => (g, (1 : ℚ) / (i + 1))) ++ genreContributionsFrom (i + 1) rest

/-- All genre/weight contributions of the artist list. -/
def genreContributions (artists : List SpotifyArtist) : List (String × ℚ) :=
  genreContributionsFrom 0 artists

/-- The accumulated genre-count map of `aggregateGenres`. -/
def genreCountsMap (artists : List SpotifyArtist) : List (String × ℚ) :=
  jsAccum Prod.fst (fun o p => o.getD 0 + p.2) [] (genreContributions artists)

/-- identity-profile.ts `aggregateGenres`: position-decayed weights
`1 / (i + 1)`, accumulated per genre, annotated with
`percentage = weight / totalWeight`, stable-sorted by descending weight,
truncated to the top 10. -/
def aggregateGenres (artists : List SpotifyArtist) : List GenreWeight :=
  let genreCounts := genreCountsMap artists
  let totalWeight := (jsValues genreCounts).sum
  (sortDesc (fun g => g.weight)
      (genreCounts.map fun p => GenreWeight.mk p.1 p.2 (p.2 / totalWeight))).take 10

/-- transformer.ts `aggregateGenresFromArtists`: identical accumulation,
with an explicit guard `total > 0` on the percentage division. -/
def aggregateGenresFromArtists (artists : List SpotifyArtist) : List GenreWeight :=
  let counts := genreCountsMap artists
  let total := (jsValues counts).sum
  (sortDesc (fun g => g.weight)
      (counts.map fun p => GenreWeight.mk p.1 p.2 (if 0 < total then p.2 / total else 0))).take 10

/-! ## DiversityMetrics (identity-profile.ts) -/

/-- The `MAINSTREAM_GENRES` keyword list of identity-profile.ts. -/
def MAINSTREAM_GENRES : List String :=
  ["pop", "dance pop", "electropop", "synthpop", "indie pop",
   "hip hop", "rap", "trap", "pop rap",
   "rock", "alternative rock", "indie rock", "pop rock",
   "edm", "electronic", "house", "techno",
   "r&b", "contemporary r&b", "soul",
   "country", "pop country"]

/-- Whether one character list starts with another. -/
def listStartsWith : List Char → List Char → Bool
  | _, [] => true
  | [], _ :: _ => false
  | h :: hs, n :: ns => h = n && listStartsWith hs ns

/-- Whether a character list contains another as a contiguous infix. -/
def listContains : List Char → List Char → Bool
  | [], needle => decide (needle = [])
  | h :: t, needle => listStartsWith (h :: t) needle || listContains t needle

/-- JS `haystack.includes(needle)` on strings. -/
def jsIncludes (haystack needle : String) : Bool :=
  listContains haystack.toList needle.toList

/-- JS `s.toLowerCase()`, modelled characterwise through `Char.toLower`. -/
def jsToLower (s : String) : String := String.mk (s.toList.map Char.toLower)

/-- identity-profile.ts `isMainstreamGenre`: case-insensitive substring
match against the keyword list. -/
def isMainstreamGenre (genre : String) : Bool :=
  MAINSTREAM_GENRES.any fun mg => jsIncludes (jsToLower genre) mg

/-- identity-profile.ts `calculateGenreEntropy`: Shannon entropy in bits of
`weight / totalWeight`, skipping non-positive shares; `0` for an empty
list (transformer.ts carries a behaviourally identical copy). -/
noncomputable def calculateGenreEntropy (genres : List GenreWeight) : ℝ :=
  if genres = [] then 0
  else
    let totalWeight : ℚ := (genres.map fun g => g.weight).sum
    genres.foldl
      (fun e g =>
        let p : ℝ := (g.weight : ℝ) / (totalWeight : ℝ)
        if 0 < p then e - p * Real.logb 2 p else e)
      0

/-- identity-profile.ts `calculateMainstreamPercentage`: fraction of the
total weight carried by mainstream genres, `0` for an empty list. -/
def calculateMainstreamPercentage (genres : List GenreWeight) : ℚ :=
  if genres = [] then 0
  else
    let totalWeight := (genres.map fun g => g.weight).sum
    let mainstreamWeight := ((genres.filter fun g => isMainstreamGenre g.name).map
      fun g => g.weight).sum
    mainstreamWeight / totalWeight

/-- identity-profile.ts `calculateMainstreamPercentage` with the final JS
division kept partial: the early return gives `some 0` on the empty list,
and on a nonempty list `mainstreamWeight / totalWeight` is no rational
value (`NaN`) when the total weight is `0`. -/
def calculateMainstreamPercentageJs (genres : List GenreWeight) : Option ℚ :=
  if genres = [] then some 0
  else
    let totalWeight := (genres.map fun g => g.weight).sum
    let mainstreamWeight := ((genres.filter fun g => isMainstreamGenre g.name).map
      fun g => g.weight).sum
    jsDiv mainstreamWeight totalWeight

/-- identity-profile.ts `calculateHipsterScore`. -/
def calculateHipsterScore (artists : List SpotifyArtist) (mainstreamPercentage : ℚ) : ℚ :=
  let avgPopularity : ℚ :=
    if artists ≠ [] then ((artists.map fun a => a.popularity).sum) / artists.length else 50
  let popularityComponent := 1 - avgPopularity / 100
  let mainstreamComponent := 1 - mainstreamPercentage
  popularityComponent * (6/10) + mainstreamComponent * (4/10)

/-- identity-profile.ts `calculateArtistDiversity`: distinct primary-artist
ids (a missing primary artist counts as one distinct key, the JS
`undefined`) divided by the number of tracks, `0` with no tracks. -/
def calculateArtistDiversity (tracks : List SpotifyTrack) : ℚ :=
  if tracks = [] then 0
  else
    ((dedupFirst (tracks.map fun t => t.artists.head?.map fun a => a.id)).length : ℚ) /
      tracks.length

/-- identity-profile.ts `calculateIdentityProfile`. -/
def calculateIdentityProfile (topArtists : List SpotifyArtist) (topTracks : List SpotifyTrack)
    (claimedGenres : List String) : IdentityProfile :=
  let actualTopGenres := aggregateGenres topArtists
  let mainstreamPercentage := calculateMainstreamPercentage actualTopGenres
  { claimedGenres := claimedGenres
    actualTopGenres := actualTopGenres
    mainstreamPercentage := mainstreamPercentage
    hipsterScore := calculateHipsterScore topArtists mainstreamPercentage
    topArtists := topArtists
    artistDiversity := calculateArtistDiversity topTracks }

/-! ## Phase shifts (identity-profile.ts `detectPhaseShifts`) -/

/-- `q.topGenres[0]?.name || "unknown"`. -/
def topGenreNameOf (q : QuarterlyListening) : String :=
  match q.topGenres.head? with
  | none => "unknown"
  | some g => jsOrS g.name "unknown"

/-- identity-profile.ts `identifyShiftTrigger`. -/
def identifyShiftTrigger (before after : QuarterlyListening) : String :=
  let valenceChange := after.averageValence - before.averageValence
  let energyChange := after.averageEnergy - before.averageEnergy
  let mainstreamChange := after.mainstreamPercentage - before.mainstreamPercentage
  if 2/10 < mainstreamChange then "comfort_seeking"
  else if mainstreamChange < -(2/10) then "exploration"
  else if valenceChange < -(15/100) ∧ energyChange < -(15/100) then "emotional_shift"
  else if 15/100 < valenceChange ∧ 15/100 < energyChange then "positive_change"
  else "natural_evolution"

/-- identity-profile.ts `interpretShift`. -/
noncomputable def interpretShift (before after : QuarterlyListening) : String :=
  let entropyBefore := calculateGenreEntropy before.topGenres
  let entropyAfter := calculateGenreEntropy after.topGenres
  if entropyAfter < entropyBefore ∧
      before.mainstreamPercentage + 1/10 < after.mainstreamPercentage then
    "retreat_to_comfort"
  else if entropyBefore + 3/10 < entropyAfter ∧
      (after.topGenres.head?.map fun g => g.name) ≠
        (before.topGenres.head?.map fun g => g.name) then
    "exploratory_escape"
  else if after.averageValence < before.averageValence - 1/10 ∧
      after.averageEnergy < before.averageEnergy - 1/10 then
    "emotional_processing"
  else "genuine_evolution"

/-- The record pushed by `detectPhaseShifts` for a significant pair. -/
noncomputable def mkPhaseTransition (previous current : QuarterlyListening) : PhaseTransition :=
  { quarter := current.period
    beforeEntropy := calculateGenreEntropy previous.topGenres
    afterEntropy := calculateGenreEntropy current.topGenres
    topGenreBefore := topGenreNameOf previous
    topGenreAfter := topGenreNameOf current
    trigger := identifyShiftTrigger previous current
    psychologicalReading := interpretShift previous current }

/-- The significance test of identity-profile.ts `detectPhaseShifts`:
strict `> 0.5` entropy change, or a changed top-genre name. -/
noncomputable def isSignificantShift (previous current : QuarterlyListening) : Prop :=
  1/2 < |calculateGenreEntropy current.topGenres - calculateGenreEntropy previous.topGenres| ∨
    topGenreNameOf previous ≠ topGenreNameOf current

open Classical in
/-- The loop body of `detectPhaseShifts`, walking consecutive pairs in
list order. -/
noncomputable def detectPhaseShiftsGo : QuarterlyListening → List QuarterlyListening →
    List PhaseTransition
  | _, [] => []
  | previous, current :: rest =>
      (if isSignificantShift previous current then [mkPhaseTransition previous current]
       else []) ++ detectPhaseShiftsGo current rest

/-- identity-profile.ts `detectPhaseShifts`: indices `i = 1 .. len-1`,
comparing window `i-1` with window `i`. -/
noncomputable def detectPhaseShifts : List QuarterlyListening → List PhaseTransition
  | [] => []
  | q :: rest => detectPhaseShiftsGo q rest

/-! ## EmotionalAnalyzer (emotional-profile.ts) -/

/-- The oscillation counter of `detectEmotionalOscillation`: both window
conditions can fire on the same centre index, each adding one. -/
def oscCount : List SpotifyAudioFeatures → ℕ
  | prev :: curr :: next :: rest =>
      (if 7/10 < prev.energy ∧ curr.valence < 2/5 ∧ 7/10 < next.energy then 1 else 0) +
        ((if 7/10 < prev.valence ∧ curr.valence < 3/10 ∧ 7/10 < next.valence then 1 else 0) +
          oscCount (curr :: next :: rest))
  | _ => 0

/-- emotional-profile.ts `detectEmotionalOscillation`: width-3 window count
normalized by the track count, `0` below 3 samples. -/
def detectEmotionalOscillation (tracks : List SpotifyAudioFeatures) : ℚ :=
  if tracks.length < 3 then 0 else (oscCount tracks : ℚ) / tracks.length

/-- The record pushed by `findMelancholyLoops` when a run is flushed. -/
def mkMelancholyRange (pending : List (SpotifyAudioFeatures × String)) : TimeRange :=
  let ts := pending.map Prod.snd
  { start := ts.headD ""
    stop := ts.getLastD ""
    valence := average (pending.map fun p => p.1.valence)
    repeatCount := pending.length }

/-- The linear scan of `findMelancholyLoops`: accumulate consecutive
samples with valence below `0.35`, flush a run of length at least 3 when a
high-valence sample is met, and flush the trailing run at the end. -/
def melancholyGo (pending : List (SpotifyAudioFeatures × String)) :
    List (SpotifyAudioFeatures × String) → List TimeRange
  | [] => if 3 ≤ pending.length then [mkMelancholyRange pending] else []
  | p :: rest =>
      if p.1.valence < 35/100 then melancholyGo (pending ++ [p]) rest
      else
        (if 3 ≤ pending.length then [mkMelancholyRange pending] else []) ++ melancholyGo [] rest

/-- emotional-profile.ts `findMelancholyLoops`. The source walks the track
indices and reads `timestamps[i]`; the zip is identical whenever
`timestamps` is at least as long as `tracks`, which holds at every call
site. -/
def findMelancholyLoops (tracks : List SpotifyAudioFeatures) (timestamps : List String) :
    List TimeRange :=
  melancholyGo [] (tracks.zip timestamps)

/-- JS `(q).toFixed(0)` for the non-negative rationals that reach it. -/
def toFixed0 (q : ℚ) : String := toString (round q)

/-- Three-digit zero padding. -/
def pad3 (n : ℕ) : String :=
  if n < 10 then "00" ++ toString n else if n < 100 then "0" ++ toString n else toString n

/-- JS `(x).toFixed(3)` for the non-negative reals that reach it. -/
noncomputable def toFixed3R (x : ℝ) : String :=
  let n : ℤ := round (x * 1000)
  toString (n / 1000) ++ "." ++ pad3 (n % 1000).toNat

/-- The raw-play repeat counts of `identifyCopingMechanisms`. -/
def repeatCountsOf (trackIds : List String) : List (String × ℕ) :=
  jsAccum id (fun o _ => o.getD 0 + 1) [] trackIds

/-- emotional-profile.ts `identifyCopingMechanisms`: repeat-loop signal
from raw play counts, energy-crash signal from the deduplicated store,
night-sadness signal from the melancholy clusters, pushed in that order. -/
noncomputable def identifyCopingMechanisms (trackIds : List String)
    (featuresMap : List (String × SpotifyAudioFeatures))
    (melancholyClusters : List TimeRange) : List CopingSignal :=
  let repeatCounts := repeatCountsOf trackIds
  let repeatedLowValence := sortDesc (fun p => (p.2 : ℚ))
    (repeatCounts.filter fun p =>
      decide (3 < p.2) &&
        (match jsGet featuresMap p.1 with
         | some f => decide (f.valence < 2/5)
         | none => false))
  let repeatSignals : List CopingSignal :=
    match repeatedLowValence with
    | [] => []
    | (topId, topCount) :: _ =>
        match jsGet featuresMap topId with
        | some f =>
            [{ type := "repeat_loop"
               severity := ((min ((topCount : ℚ) / 10) 1 : ℚ) : ℝ)
               description := "Repeated a low-valence track " ++ toString topCount ++ " times"
               evidence := ["Track valence: " ++ toFixed0 (f.valence * 100) ++ "%",
                            "Repeat count: " ++ toString topCount] }]
        | none => []
  let features := jsValues featuresMap
  let energyStd := standardDeviation (features.map fun f => f.energy)
  let energySignals : List CopingSignal :=
    if (1/4 : ℝ) < energyStd then
      [{ type := "energy_crash"
         severity := min (energyStd * 2) 1
         description := "High energy volatility detected"
         evidence := ["Energy standard deviation: " ++ toFixed3R energyStd] }]
    else []
  let nightSignals : List CopingSignal :=
    if melancholyClusters ≠ [] then
      let total := (melancholyClusters.map fun c => c.repeatCount).sum
      [{ type := "night_sadness"
         severity := ((min ((total : ℚ) / 50) 1 : ℚ) : ℝ)
         description := toString melancholyClusters.length ++
           " melancholy listening sessions detected"
         evidence := melancholyClusters.map fun c =>
           "Session: " ++ toString c.repeatCount ++ " tracks, avg valence " ++
             toFixed0 (c.valence * 100) ++ "%" }]
    else []
  repeatSignals ++ energySignals ++ nightSignals

open Classical in
/-- emotional-profile.ts `inferPsychologicalState`: mean coping severity
(0 with no signals, via `max(len, 1)`), then the threshold cascade. -/
noncomputable def inferPsychologicalState (valenceStd : ℝ) (oscillationScore : ℚ)
    (copingSignals : List CopingSignal) : String :=
  let severity := (copingSignals.map fun c => c.severity).sum / (max copingSignals.length 1 : ℕ)
  if (7/10 : ℝ) < severity then "intense_processing"
  else if (2/5 : ℝ) < severity then "active_coping"
  else if (1/4 : ℝ) < valenceStd then "emotional_exploration"
  else if (1/10 : ℚ) < oscillationScore then "emotional_oscillation"
  else "emotional_stability"

/-- emotional-profile.ts `getPsychologicalStateDescription`: the prose map,
falling back to the stability description for unknown tags. -/
def getPsychologicalStateDescription (state : String) : String :=
  if state = "intense_processing" then
    "Your listening patterns suggest you were processing significant emotional experiences. The data shows concentrated periods of low-valence music, often repeated — a pattern consistent with emotional maintenance."
  else if state = "active_coping" then
    "Your music choices reveal active coping mechanisms. You gravitated toward specific emotional textures during challenging periods, using music as a processing tool."
  else if state = "emotional_exploration" then
    "You explored a wide emotional range this year, from high-energy peaks to introspective valleys. This suggests a period of emotional discovery and growth."
  else if state = "emotional_oscillation" then
    "Your listening shows a pattern of emotional oscillation — rapid shifts between high and low valence. This could indicate a dynamic emotional landscape or reactive listening patterns."
  else
    "Your emotional listening patterns remained relatively consistent, suggesting a period of stability or contentment."

/-- The energy-arc construction in `calculateEmotionalProfile`: the clock
read `new Date().toISOString()` backing a missing timestamp is the
explicit `now` argument. -/
def energyArcFrom (i : ℕ) (timestamps : List String) (now : String)
    (clusters : List TimeRange) : List SpotifyAudioFeatures → List TimeSeriesPoint
  | [] => []
  | track :: rest =>
      let ts := (timestamps.get? i).getD ""
      { date := jsOrS ts now
        valence := track.valence
        energy := track.energy
        tempo := track.tempo
        isCopingCluster := clusters.any fun c => decide (c.start ≤ ts) && decide (ts ≤ c.stop) }
        :: energyArcFrom (i + 1) timestamps now clusters rest

/-- emotional-profile.ts `calculateEmotionalProfile`. The optional raw
track ids and deduplicated map keep the source signature; the fallback map
`new Map(tracks.map(t => [t.id, t]))` is the insertion-order accumulation
over the track list. -/
noncomputable def calculateEmotionalProfile (tracks : List SpotifyAudioFeatures)
    (timestamps : List String) (rawTrackIds : Option (List String))
    (featuresMap : Option (List (String × SpotifyAudioFeatures))) (now : String) :
    EmotionalProfile :=
  let valences := tracks.map fun t => t.valence
  let energies := tracks.map fun t => t.energy
  let valenceStd := standardDeviation valences
  let oscillationScore := detectEmotionalOscillation tracks
  let melancholyClusters := findMelancholyLoops tracks timestamps
  let copingIndicators := identifyCopingMechanisms
    (rawTrackIds.getD (tracks.map fun t => t.id))
    (featuresMap.getD (jsAccum (fun t => t.id) (fun _ t => t) [] tracks))
    melancholyClusters
  { valenceVolatility := valenceStd
    energyArc := energyArcFrom 0 timestamps now melancholyClusters tracks
    melancholyClusters := melancholyClusters
    copingIndicators := copingIndicators
    stabilityScore := 1 - min ((valenceStd + standardDeviation energies) / 2) 1
    oscillationPattern := oscillationScore
    psychologicalState := getPsychologicalStateDescription
      (inferPsychologicalState valenceStd oscillationScore copingIndicators)
    averageValence := average valences
    averageEnergy := average energies }

/-! ## CircadianAnalyzer (nocturnal-analysis.ts) -/

/-- The numeric value of a decimal digit character. -/
def digitVal (c : Char) : ℕ := c.toNat - 48

/-- nocturnal-analysis.ts `getHourFromTimestamp`
(`new Date(ts).getHours()`), modelled as the UTC reading of the two hour
digits of a well-formed ISO-8601 string, `0` on malformed input. -/
def getHourFromTimestamp (timestamp : String) : ℕ :=
  match timestamp.toList.drop 11 with
  | d1 :: d2 :: _ => digitVal d1 * 10 + digitVal d2
  | _ => 0

/-- `new Date(ts).toDateString()` as a calendar-day grouping key, modelled
by the 10-character ISO date prefix. -/
def dateKeyOf (timestamp : String) : String := String.mk (timestamp.toList.take 10)

/-- nocturnal-analysis.ts `isNightTime`: hour in `[0, 5]`. -/
def isNightTime (timestamp : String) : Bool :=
  decide (getHourFromTimestamp timestamp ≤ 5)

/-- The per-track accumulator of `detectRepeatLoops`. -/
structure TrackSeq where
  count : ℕ
  timestamps : List String
  valences : List ℚ
deriving DecidableEq, Repr

/-- The `trackSequences` map of `detectRepeatLoops`: every play appends
its timestamp, and its sample valence when the track has features. -/
def trackSequencesOf (playHistory : List SpotifyPlayHistory)
    (audioFeatures : List (String × SpotifyAudioFeatures)) : List (String × TrackSeq) :=
  jsAccum (fun p => p.track.id)
    (fun o p =>
      let s := o.getD ⟨0, [], []⟩
      { count := s.count + 1
        timestamps := s.timestamps ++ [p.played_at]
        valences := s.valences ++
          (match jsGet audioFeatures p.track.id with
           | some f => [f.valence]
           | none => []) })
    [] playHistory

/-- nocturnal-analysis.ts `detectRepeatLoops`: keep groups with count at
least 2, mean valence over matched samples (`0.5` with none), name from
the first play of the track (`|| "Unknown Track"`), sorted by descending
count. -/
def detectRepeatLoops (playHistory : List SpotifyPlayHistory)
    (audioFeatures : List (String × SpotifyAudioFeatures)) : List RepeatLoop :=
  let loops := (trackSequencesOf playHistory audioFeatures).filterMap fun p =>
    if 2 ≤ p.2.count then
      some { trackId := p.1
             trackName :=
               match playHistory.find? (fun q => decide (q.track.id = p.1)) with
               | some q => jsOrS q.track.name "Unknown Track"
               | none => "Unknown Track"
             count := p.2.count
             avgValence :=
               if 0 < p.2.valences.length then p.2.valences.sum / p.2.valences.length
               else 1/2
             timestamps := p.2.timestamps }
    else none
  sortDesc (fun l => (l.count : ℚ)) loops

structure InsomniaPattern where
  hasInsomniaPattern : Bool
  lateNightDays : ℕ
  averageSessionLength : ℚ
deriving DecidableEq, Repr

/-- nocturnal-analysis.ts `detectInsomniaPatterns`: plays with hour in
`[2, 5]`, grouped by calendar date; three or more distinct dates flag the
pattern. -/
def detectInsomniaPatterns (playHistory : List SpotifyPlayHistory) : InsomniaPattern :=
  let lateNightPlays := playHistory.filter fun p =>
    decide (2 ≤ getHourFromTimestamp p.played_at) &&
      decide (getHourFromTimestamp p.played_at ≤ 5)
  let playsByDate := jsAccum (fun p => dateKeyOf p.played_at) (fun o _ => o.getD 0 + 1)
    ([] : List (String × ℕ)) lateNightPlays
  let lateNightDays := playsByDate.length
  let totalPlays := lateNightPlays.length
  { hasInsomniaPattern := decide (3 ≤ lateNightDays)
    lateNightDays := lateNightDays
    averageSessionLength :=
      if 0 < lateNightDays then (totalPlays : ℚ) / lateNightDays else 0 }

/-- nocturnal-analysis.ts `generateNightConfrontation`. -/
def generateNightConfrontation (nightRatio nightValence : ℚ) (loops : List RepeatLoop)
    (insomniaPattern : InsomniaPattern) : String :=
  if 2/10 < nightRatio ∧ nightValence < 35/100 then
    let sadLoops := loops.filter fun l =>
      decide (l.avgValence < 4/10) && l.timestamps.any fun t => isNightTime t
    match sadLoops with
    | l :: _ =>
        "You don\x27t listen to sad music at 2am randomly. You loop it. \"" ++ l.trackName ++
          "\" wasn\x27t background noise—it was maintenance. These tracks are emotional pressure valves, played until the feeling exhausts itself."
    | [] =>
        "The hours between midnight and 5am tell a different story. While the world sleeps, your playlist becomes a confessional. Low-valence tracks, repeated. This isn\x27t curation—it\x27s processing."
  else if insomniaPattern.hasInsomniaPattern then
    "On " ++ toString insomniaPattern.lateNightDays ++
      " different nights this period, you were awake when you probably didn\x27t want to be. Your playlist kept you company through the quiet hours. The music knew what you needed before you did."
  else if 25/100 < nightRatio then
    "You\x27re a creature of the night—at least musically. A quarter of your listening happens when most people are asleep. There\x27s something about the quiet hours that makes the music hit different."
  else if 1/10 < nightRatio then
    "The night has its own soundtrack in your world. Those late-hour listens aren\x27t accidents—they\x27re when you let your guard down and listen to what you actually need to hear."
  else
    "You\x27re disciplined about your sleep—or maybe the night just doesn\x27t call to you musically. Your listening patterns suggest someone who keeps reasonable hours."

/-- nocturnal-analysis.ts `analyzeNocturnalBehavior`. The local `hours`
map of the source is dead code (never read) and is not modelled. -/
def analyzeNocturnalBehavior (playHistory : List SpotifyPlayHistory)
    (audioFeatures : List (String × SpotifyAudioFeatures)) : NocturnalProfile :=
  let nightPlays := playHistory.filter fun p => isNightTime p.played_at
  let nightRatio : ℚ :=
    if 0 < playHistory.length then (nightPlays.length : ℚ) / playHistory.length else 0
  let nightAudioFeatures := nightPlays.filterMap fun p => jsGet audioFeatures p.track.id
  let nightValence : ℚ :=
    if 0 < nightAudioFeatures.length then
      ((nightAudioFeatures.map fun f => f.valence).sum) / nightAudioFeatures.length
    else 1/2
  let allLoops := detectRepeatLoops playHistory audioFeatures
  let nightLoops := allLoops.filter fun loop => loop.timestamps.any fun t => isNightTime t
  let insomniaPattern := detectInsomniaPatterns playHistory
  { nightOwlScore := nightRatio
    nightRatio := nightRatio
    nightValence := nightValence
    averageNightValence := nightValence
    sadnessLoops := nightLoops.filter fun l => decide (l.avgValence < 4/10)
    loops := nightLoops
    insomniaIndicators := insomniaPattern.hasInsomniaPattern
    confrontation :=
      generateNightConfrontation nightRatio nightValence nightLoops insomniaPattern }

/-! ## TemporalAggregator and ProfileBuilder (transformer.ts)

transformer.ts carries its own copies of `average`, `standardDeviation`
and `calculateGenreEntropy`, textually identical in behaviour to the ones
above; they are shared here. -/

/-- The `MAINSTREAM_KEYWORDS` list of transformer.ts. -/
def MAINSTREAM_KEYWORDS : List String :=
  ["pop", "dance pop", "hip hop", "rap", "rock", "r&b", "country", "edm", "house"]

/-- transformer.ts `calcMainstreamPct`: like the identity-profile
classifier but over its own keyword list, with an explicit zero-total
guard. -/
def calcMainstreamPct (genres : List GenreWeight) : ℚ :=
  let total := (genres.map fun g => g.weight).sum
  if total = 0 then 0
  else
    ((genres.filter fun g =>
        MAINSTREAM_KEYWORDS.any fun k => jsIncludes (jsToLower g.name) k).map
      fun g => g.weight).sum / total

structure RangedTrackData where
  short : List SpotifyTrack
  medium : List SpotifyTrack
  long : List SpotifyTrack
deriving DecidableEq, Repr

/-- The `artistMap` of `buildQuarterlyProxy.makeQuarter`: all artists of
the window tracks, deduplicated by id (last record wins, first-encounter
position kept). -/
def uniqueArtistsOf (tracks : List SpotifyTrack) : List SpotifyArtist :=
  jsValues (jsAccum (fun a => a.id) (fun _ a => a) [] (tracks.flatMap fun t => t.artists))

/-- The `makeQuarter` closure of transformer.ts `buildQuarterlyProxy`. -/
def makeQuarter (audioFeatures : List (String × SpotifyAudioFeatures))
    (tracks : List SpotifyTrack) (period : String) : QuarterlyListening :=
  let uniqueArtists := uniqueArtistsOf tracks
  let genres := aggregateGenresFromArtists uniqueArtists
  let feats := tracks.filterMap fun t => jsGet audioFeatures t.id
  { period := period
    topGenres := genres
    mainstreamPercentage := calcMainstreamPct genres
    averageValence := jsOrQ (average (feats.map fun f => f.valence)) (1/2)
    averageEnergy := jsOrQ (average (feats.map fun f => f.energy)) (1/2)
    topTracks := tracks.take 5 }

/-- transformer.ts `buildQuarterlyProxy`: the fixed window order
long → Full Year, medium → Mid-Year, short → Recent. -/
def buildQuarterlyProxy (byRange : RangedTrackData)
    (audioFeatures : List (String × SpotifyAudioFeatures)) : List QuarterlyListening :=
  [makeQuarter audioFeatures byRange.long "Full Year",
   makeQuarter audioFeatures byRange.medium "Mid-Year",
   makeQuarter audioFeatures byRange.short "Recent"]

/-- transformer.ts `buildTemporalProfile`: hour histogram and peak hour,
total minutes, active days, and the quarterly proxy. -/
def buildTemporalProfile (recentlyPlayed : List SpotifyPlayHistory)
    (byRange : RangedTrackData)
    (audioFeatures : List (String × SpotifyAudioFeatures)) : TemporalProfile :=
  let hourCounts := jsAccum (fun p => getHourFromTimestamp p.played_at)
    (fun o _ => o.getD 0 + 1) ([] : List (ℕ × ℕ)) recentlyPlayed
  let peak := hourCounts.foldl (fun acc e => if acc.2 < e.2 then e else acc) ((0 : ℕ), (0 : ℕ))
  let totalMs : ℚ := (recentlyPlayed.map fun p => p.track.duration_ms).sum
  { totalListeningTime := round (totalMs / 60000)
    activeDays := (dedupFirst (recentlyPlayed.map fun p => dateKeyOf p.played_at)).length
    peakListeningHour := peak.1
    quarterlyBreakdown := buildQuarterlyProxy byRange audioFeatures }

/-- transformer.ts `buildComfortZoneMetrics`; BPM range defaults 60–180
with no matched features. -/
noncomputable def buildComfortZoneMetrics (topTracks : List SpotifyTrack)
    (audioFeatures : List (String × SpotifyAudioFeatures))
    (genreEntropy : ℝ) (artistDiversity : ℚ) : ComfortZoneMetrics :=
  let feats := topTracks.filterMap fun t => jsGet audioFeatures t.id
  let bpms := feats.map fun f => f.tempo
  { bpmVariance := standardDeviation bpms
    genreEntropy := genreEntropy
    artistLoyalty := 1 - artistDiversity
    bpmRange :=
      { min := match bpms with | [] => 60 | b :: rest => rest.foldl min b
        max := match bpms with | [] => 180 | b :: rest => rest.foldl max b } }

structure ComprehensiveSpotifyData where
  topTracks : List SpotifyTrack
  topArtists : List SpotifyArtist
  recentlyPlayed : List SpotifyPlayHistory
  audioFeatures : List (String × SpotifyAudioFeatures)
deriving DecidableEq, Repr

/-- transformer.ts `buildListeningProfile`: pure orchestration of the four
analyzers; `obsessionLoops` and `phaseShifts` are emitted empty. The
`now` argument stands for the single clock read reachable through the
energy-arc timestamp fallback. -/
noncomputable def buildListeningProfile (data : ComprehensiveSpotifyData)
    (rangedTracks : RangedTrackData) (now : String) : ListeningProfile :=
  let identity := calculateIdentityProfile data.topArtists data.topTracks []
  let recentFeats := data.recentlyPlayed.filterMap fun p =>
    jsGet data.audioFeatures p.track.id
  let timestamps := data.recentlyPlayed.map fun p => p.played_at
  let rawTrackIds := data.recentlyPlayed.map fun p => p.track.id
  let emotional := calculateEmotionalProfile recentFeats timestamps
    (some rawTrackIds) (some data.audioFeatures) now
  let nocturnal := analyzeNocturnalBehavior data.recentlyPlayed data.audioFeatures
  let temporal := buildTemporalProfile data.recentlyPlayed rangedTracks data.audioFeatures
  let comfortZone := buildComfortZoneMetrics data.topTracks data.audioFeatures
    (calculateGenreEntropy identity.actualTopGenres) identity.artistDiversity
  { identity := identity
    emotional := emotional
    behavioral :=
      { circadianPatterns := nocturnal
        obsessionLoops := []
        phaseShifts := []
        comfortZoneMetrics := comfortZone }
    temporal := temporal }

/-! ## Derived and spec-side definitions used by the verification -/

/-- The accumulated weight of one genre name: the sum of the position
weights of its occurrences among the contributions from index `i0` on. -/
def genreWeightFrom (i0 : ℕ) (artists : List SpotifyArtist) (g : String) : ℚ :=
  ((genreContributionsFrom i0 artists).filter fun p => decide (p.1 = g)).foldl
    (fun acc p => acc + p.2) 0

/-- The first-encounter order of genre names. -/
def genreOrder (artists : List SpotifyArtist) : List String :=
  dedupFirst ((genreContributions artists).map Prod.fst)

/-- The total accumulated weight. -/
def totalGenreWeight (artists : List SpotifyArtist) : ℚ :=
  ((genreOrder artists).map fun g => genreWeightFrom 0 artists g).sum

/-- The genre-share list before sorting and truncation, in first-encounter
order, with `percentage = weight / totalWeight`. -/
def aggregatedEntries (artists : List SpotifyArtist) : List GenreWeight :=
  (genreOrder artists).map fun g =>
    GenreWeight.mk g (genreWeightFrom 0 artists g)
      (genreWeightFrom 0 artists g / totalGenreWeight artists)

/-- A sample below the melancholy threshold. -/
def lowSample (p : SpotifyAudioFeatures × String) : Bool := decide (p.1.valence < 35/100)

/-- The maximal contiguous low-valence runs of a chronological sample
list, in order, written with `takeWhile` and `dropWhile` as the spec
describes them. -/
def melancholyRuns : List (SpotifyAudioFeatures × String) →
    List (List (SpotifyAudioFeatures × String))
  | [] => []
  | p :: ps =>
      if lowSample p then
        (p :: ps.takeWhile lowSample) :: melancholyRuns (ps.dropWhile lowSample)
      else melancholyRuns ps
termination_by l => l.length
decreasing_by
  · simp only [List.length_cons]
    exact Nat.lt_succ_of_le (List.Sublist.length_le (List.dropWhile_sublist _))
  · simp [List.length_cons, Nat.lt_succ_self]

/-- The pending run prepended to the run decomposition of the remainder. -/
def runsWithPending (pending rest : List (SpotifyAudioFeatures × String)) :
    List (List (SpotifyAudioFeatures × String)) :=
  if pending = [] then melancholyRuns rest
  else (pending ++ rest.takeWhile lowSample) :: melancholyRuns (rest.dropWhile lowSample)

/-- The plays of one track id, in encounter order. -/
def repeatOccurrences (playHistory : List SpotifyPlayHistory) (tid : String) :
    List SpotifyPlayHistory :=
  playHistory.filter fun p => decide (p.track.id = tid)

/-- The loop record of one track id, written from the spec: occurrence
count, timestamps in order, mean valence over matched samples with a 0.5
default, display name from the first play (with the `Unknown Track`
fallback). -/
def repeatLoopSpec (playHistory : List SpotifyPlayHistory)
    (audioFeatures : List (String × SpotifyAudioFeatures)) (tid : String) : RepeatLoop :=
  { trackId := tid
    trackName :=
      match playHistory.find? (fun q => decide (q.track.id = tid)) with
      | some q => jsOrS q.track.name "Unknown Track"
      | none => "Unknown Track"
    count := (repeatOccurrences playHistory tid).length
    avgValence :=
      let vals := (repeatOccurrences playHistory tid).filterMap fun p =>
        (jsGet audioFeatures p.track.id).map fun f => f.valence
      if 0 < vals.length then vals.sum / vals.length else 1/2
    timestamps := (repeatOccurrences playHistory tid).map fun p => p.played_at }

open Classical in
/-- The psychological-state decision written from the spec: severity is
the mean coping severity, 0 with no signals, then the threshold cascade. -/
noncomputable def psychologicalStateSpec (valenceStd : ℝ) (oscillationScore : ℚ)
    (copingSignals : List CopingSignal) : String :=
  let severity : ℝ :=
    if copingSignals = [] then 0
    else (copingSignals.map fun c => c.severity).sum / copingSignals.length
  if (7/10 : ℝ) < severity then "intense_processing"
  else if (2/5 : ℝ) < severity then "active_coping"
  else if (1/4 : ℝ) < valenceStd then "emotional_exploration"
  else if (1/10 : ℚ) < oscillationScore then "emotional_oscillation"
  else "emotional_stability"

open Classical in
/-- The pairwise walk written from the spec: consecutive window pairs in
list order, emitting a transition exactly when the shift is significant
(strict `> 0.5` entropy change, or changed top-genre name). -/
noncomputable def phaseShiftsSpec (qd : List QuarterlyListening) : List PhaseTransition :=
  (qd.zip qd.tail).filterMap fun pq =>
    if isSignificantShift pq.1 pq.2 then some (mkPhaseTransition pq.1 pq.2) else none


/-! ## Lemmas about the JS map model -/

section JsMapLemmas

variable {κ : Type} {α : Type} {β : Type} [DecidableEq κ]

/-- Folding an accumulation whose state is always `some`. -/
def accOpt (upd : Option β → α → β) (o : Option β) (l : List α) : Option β :=
  l.foldl (fun a x => some (upd a x)) o

theorem jsGet_jsSet (m : List (κ × β)) (k k' : κ) (v : β) :
    jsGet (jsSet m k v) k' = if k = k' then some v else jsGet m k' := by
  induction m with
  | nil => simp [jsSet, jsGet]
  | cons hd tl ih =>
      obtain ⟨a, b⟩ := hd
      by_cases hak : a = k
      · subst hak
        by_cases h : a = k' <;> simp [jsSet, jsGet, h]
      · simp only [jsSet, if_neg hak, jsGet]
        by_cases hak' : a = k'
        · subst hak'
          have : ¬ k = a := fun h => hak h.symm
          simp [this]
        · simp [hak', ih]

theorem jsKeys_jsSet (m : List (κ × β)) (k : κ) (v : β) :
    jsKeys (jsSet m k v) =
      if k ∈ jsKeys m then jsKeys m else jsKeys m ++ [k] := by
  induction m with
  | nil => simp [jsSet, jsKeys]
  | cons hd tl ih =>
      obtain ⟨a, b⟩ := hd
      by_cases hak : a = k
      · subst hak
        simp [jsSet, jsKeys]
      · have hka : ¬ k = a := fun h => hak h.symm
        by_cases hk : k ∈ jsKeys tl
        · simp only [jsKeys] at ih hk
          simp [jsSet, jsKeys, hak, ih, hk, hka]
        · simp only [jsKeys] at ih hk
          simp [jsSet, jsKeys, hak, ih, hk, hka]

theorem accOpt_some (upd : Option β → α → β) (b : β) (l : List α) :
    accOpt upd (some b) l = some (l.foldl (fun acc x => upd (some acc) x) b) := by
  induction l generalizing b with
  | nil => rfl
  | cons x xs ih => simp [accOpt, List.foldl_cons] at ih ⊢; exact ih _

theorem jsGet_jsAccum (key : α → κ) (upd : Option β → α → β) (L : List α)
    (m : List (κ × β)) (k : κ) :
    jsGet (jsAccum key upd m L) k =
      accOpt upd (jsGet m k) (L.filter fun x => decide (key x = k)) := by
  induction L generalizing m with
  | nil => rfl
  | cons x xs ih =>
      by_cases hx : key x = k
      · simp only [jsAccum, List.foldl_cons] at ih ⊢
        rw [ih, jsGet_jsSet, if_pos hx, List.filter_cons, if_pos (by simp [hx])]
        subst hx
        rfl
      · simp only [jsAccum, List.foldl_cons] at ih ⊢
        rw [ih, jsGet_jsSet, if_neg hx, List.filter_cons, if_neg (by simp [hx])]

theorem jsKeys_jsAccum (key : α → κ) (upd : Option β → α → β) (L : List α)
    (m : List (κ × β)) :
    jsKeys (jsAccum key upd m L) =
      jsKeys m ++ dedupFirst ((L.map key).filter fun k => decide (k ∉ jsKeys m)) := by
  induction L generalizing m with
  | nil => simp [jsAccum, dedupFirst]
  | cons x xs ih =>
      simp only [jsAccum, List.foldl_cons] at ih ⊢
      rw [ih, jsKeys_jsSet]
      by_cases hx : key x ∈ jsKeys m
      · rw [if_pos hx]
        simp only [List.map_cons, List.filter_cons]
        rw [if_neg (by simp [hx])]
      · rw [if_neg hx]
        simp only [List.map_cons, List.filter_cons]
        rw [if_pos (by simp [hx])]
        have hfilter : ((xs.map key).filter fun k => decide (k ∉ jsKeys m ++ [key x])) =
            ((xs.map key).filter fun k => decide (k ∉ jsKeys m)).filter
              fun k => decide (k ≠ key x) := by
          rw [List.filter_filter]
          apply List.filter_congr
          intro a _
          by_cases h1 : a = key x <;> by_cases h2 : a ∈ jsKeys m <;> simp [h1, h2]
        rw [hfilter, dedupFirst]
        simp [List.append_assoc]

theorem mem_dedupFirst (l : List κ) (k : κ) : k ∈ dedupFirst l ↔ k ∈ l := by
  induction l using dedupFirst.induct with
  | case1 => simp [dedupFirst]
  | case2 a rest ih =>
      rw [dedupFirst]
      by_cases hk : k = a
      · subst hk; simp
      · simp only [List.mem_cons, hk, false_or, ih, List.mem_filter]
        simp [hk]

theorem dedupFirst_nodup (l : List κ) : (dedupFirst l).Nodup := by
  induction l using dedupFirst.induct with
  | case1 => simp [dedupFirst]
  | case2 a rest ih =>
      rw [dedupFirst]
      refine List.Nodup.cons ?_ ih
      intro hmem
      rw [mem_dedupFirst] at hmem
      simp at hmem

/-- Reconstruction of an association list with distinct keys from its keys
and lookups. -/
theorem entries_ext (m : List (κ × β)) (v : κ → β) (hnd : (jsKeys m).Nodup)
    (hv : ∀ k, k ∈ jsKeys m → jsGet m k = some (v k)) :
    m = (jsKeys m).map fun k => (k, v k) := by
  induction m with
  | nil => rfl
  | cons hd tl ih =>
      obtain ⟨a, b⟩ := hd
      simp only [jsKeys, List.map_cons] at hnd hv ⊢
      have hab : b = v a := by
        have := hv a (by simp)
        simp [jsGet] at this
        exact this
      have htl : tl = (jsKeys tl).map fun k => (k, v k) := by
        apply ih (List.Nodup.of_cons hnd)
        intro k hk
        have hka : ¬ a = k := by
          rintro rfl
          exact (List.nodup_cons.mp hnd).1 hk
        have := hv k (List.mem_cons_of_mem a hk)
        rw [jsGet, if_neg hka] at this
        exact this
      rw [hab]
      exact congrArg _ htl

/-- The central characterization: a `getD`-style accumulation over an
empty initial map lists the keys in first-encounter order, each paired
with the fold of its occurrences. -/
theorem jsAccum_getD_eq (key : α → κ) (f : β → α → β) (d : β) (L : List α) :
    jsAccum key (fun o x => f (o.getD d) x) [] L =
      (dedupFirst (L.map key)).map fun k =>
        (k, (L.filter fun x => decide (key x = k)).foldl f d) := by
  have hkeys : jsKeys (jsAccum key (fun o x => f (o.getD d) x) [] L) =
      dedupFirst (L.map key) := by
    rw [jsKeys_jsAccum]
    simp only [jsKeys, List.map_nil, List.nil_append]
    congr 1
    refine (List.filter_eq_self).mpr ?_
    intro a _
    simp
  rw [← hkeys]
  apply entries_ext
  · rw [hkeys]; exact dedupFirst_nodup _
  · intro k hk
    rw [hkeys, mem_dedupFirst, List.mem_map] at hk
    obtain ⟨x, hxL, hxk⟩ := hk
    rw [jsGet_jsAccum]
    simp only [jsGet]
    have hne : (L.filter fun x => decide (key x = k)) ≠ [] := by
      intro hnil
      have : x ∈ L.filter fun x => decide (key x = k) := by
        rw [List.mem_filter]
        exact ⟨hxL, by simp [hxk]⟩
      rw [hnil] at this
      exact (List.not_mem_nil x) this
    obtain ⟨y, ys, hys⟩ := List.exists_cons_of_ne_nil hne
    rw [hys, accOpt, List.foldl_cons]
    simp only [Option.getD_none]
    have hsome := accOpt_some (fun (o : Option β) x => f (o.getD d) x) (f d y) ys
    simp only [accOpt] at hsome
    rw [hsome]
    simp only [Option.getD_some, List.foldl_cons]

end JsMapLemmas

/-! ## Lemmas about the stable descending sort -/

section SortLemmas

variable {α : Type}

theorem insertDesc_perm (keyf : α → ℚ) (x : α) (l : List α) :
    List.Perm (insertDesc keyf x l) (x :: l) := by
  induction l with
  | nil => rfl
  | cons y ys ih =>
      rw [insertDesc]
      by_cases h : keyf x < keyf y
      · rw [if_pos h]
        exact (ih.cons y).trans (List.Perm.swap x y ys)
      · rw [if_neg h]

theorem sortDesc_perm (keyf : α → ℚ) (l : List α) : List.Perm (sortDesc keyf l) l := by
  induction l with
  | nil => rfl
  | cons x xs ih => exact (insertDesc_perm keyf x (sortDesc keyf xs)).trans (ih.cons x)

theorem insertDesc_sorted (keyf : α → ℚ) (x : α) (l : List α)
    (h : l.Sorted fun a b => keyf b ≤ keyf a) :
    (insertDesc keyf x l).Sorted fun a b => keyf b ≤ keyf a := by
  induction l with
  | nil => simp [insertDesc]
  | cons y ys ih =>
      rw [insertDesc]
      by_cases hxy : keyf x < keyf y
      · rw [if_pos hxy]
        rw [List.sorted_cons] at h ⊢
        refine ⟨?_, ih h.2⟩
        intro b hb
        have hb2 := (insertDesc_perm keyf x ys).mem_iff.mp hb
        rcases List.mem_cons.mp hb2 with hb3 | hb3
        · subst hb3; exact le_of_lt hxy
        · exact h.1 b hb3
      · rw [if_neg hxy]
        rw [List.sorted_cons] at h ⊢
        push_neg at hxy
        refine ⟨?_, List.sorted_cons.mpr h⟩
        intro b hb
        rcases List.mem_cons.mp hb with hb3 | hb3
        · subst hb3; exact hxy
        · exact le_trans (h.1 b hb3) hxy

theorem sortDesc_sorted (keyf : α → ℚ) (l : List α) :
    (sortDesc keyf l).Sorted fun a b => keyf b ≤ keyf a := by
  induction l with
  | nil => simp [sortDesc]
  | cons x xs ih => exact insertDesc_sorted keyf x _ ih

theorem sortDesc_length (keyf : α → ℚ) (l : List α) :
    (sortDesc keyf l).length = l.length :=
  (sortDesc_perm keyf l).length_eq

end SortLemmas

/-! ## Characterization of the genre aggregation -/

theorem genreCountsMap_eq (artists : List SpotifyArtist) :
    genreCountsMap artists =
      (genreOrder artists).map fun g => (g, genreWeightFrom 0 artists g) := by
  unfold genreCountsMap genreOrder genreWeightFrom genreContributions
  exact jsAccum_getD_eq Prod.fst (fun (acc : ℚ) (p : String × ℚ) => acc + p.2) 0 _

theorem foldl_add_snd (l : List (String × ℚ)) (a : ℚ) :
    l.foldl (fun acc p => acc + p.2) a = a + (l.map Prod.snd).sum := by
  induction l generalizing a with
  | nil => simp
  | cons p ps ih => simp [List.foldl_cons, ih, add_assoc]

/-- Every position-decayed contribution weight is positive. -/
theorem genreContributionsFrom_pos (artists : List SpotifyArtist) (i0 : ℕ) :
    ∀ p ∈ genreContributionsFrom i0 artists, 0 < p.2 := by
  induction artists generalizing i0 with
  | nil => intro p hp; simp [genreContributionsFrom] at hp
  | cons a rest ih =>
      intro p hp
      rw [genreContributionsFrom, List.mem_append] at hp
      rcases hp with hp | hp
      · rw [List.mem_map] at hp
        obtain ⟨g, _, rfl⟩ := hp
        positivity
      · exact ih (i0 + 1) p hp

theorem genreWeightFrom_pos (artists : List SpotifyArtist) (g : String)
    (hg : g ∈ genreOrder artists) : 0 < genreWeightFrom 0 artists g := by
  rw [genreOrder, mem_dedupFirst, List.mem_map] at hg
  obtain ⟨p, hp, hpg⟩ := hg
  have hmem : p ∈ (genreContributionsFrom 0 artists).filter fun q => decide (q.1 = g) := by
    rw [List.mem_filter]
    exact ⟨hp, by simp [hpg]⟩
  rw [genreWeightFrom, foldl_add_snd, zero_add]
  apply List.sum_pos
  · intro x hx
    rw [List.mem_map] at hx
    obtain ⟨q, hq, rfl⟩ := hx
    exact genreContributionsFrom_pos artists 0 q (List.mem_of_mem_filter hq)
  · intro hnil
    rw [List.map_eq_nil_iff] at hnil
    rw [hnil] at hmem
    exact (List.not_mem_nil p) hmem

theorem totalGenreWeight_pos (artists : List SpotifyArtist)
    (h : genreOrder artists ≠ []) : 0 < totalGenreWeight artists := by
  rw [totalGenreWeight]
  apply List.sum_pos
  · intro x hx
    rw [List.mem_map] at hx
    obtain ⟨g, hg, rfl⟩ := hx
    exact genreWeightFrom_pos artists g hg
  · intro hnil
    rw [List.map_eq_nil_iff] at hnil
    exact h hnil

/-- `aggregateGenres` is exactly: accumulate position-decayed weights per
genre in first-encounter order, annotate with the share of the total,
stable-sort by descending weight, keep the first 10. -/
theorem aggregateGenres_eq (artists : List SpotifyArtist) :
    aggregateGenres artists =
      (sortDesc (fun g => g.weight) (aggregatedEntries artists)).take 10 := by
  unfold aggregateGenres aggregatedEntries totalGenreWeight
  rw [genreCountsMap_eq]
  simp only [jsValues, List.map_map]
  rfl

theorem aggregateGenresFromArtists_eq (artists : List SpotifyArtist) :
    aggregateGenresFromArtists artists = aggregateGenres artists := by
  rcases h : genreOrder artists with _ | ⟨g, gs⟩
  · simp only [aggregateGenresFromArtists, aggregateGenres, genreCountsMap_eq, h]
    rfl
  · have hpos : 0 <
        ((genreOrder artists).map
          (Prod.snd ∘ fun g => (g, genreWeightFrom 0 artists g))).sum :=
      totalGenreWeight_pos artists (by rw [h]; simp)
    simp only [aggregateGenresFromArtists, aggregateGenres, genreCountsMap_eq, jsValues]
    simp [hpos]

theorem map_div_sum {α : Type} (f : α → ℚ) (c : ℚ) (l : List α) :
    (l.map fun x => f x / c).sum = (l.map f).sum / c := by
  induction l with
  | nil => simp
  | cons x xs ih => simp [ih, add_div]

/-- With between 1 and 10 distinct genres, the kept percentages sum to
exactly 1. -/
theorem aggregateGenres_sum_eq_one (artists : List SpotifyArtist)
    (h1 : genreOrder artists ≠ []) (h10 : (genreOrder artists).length ≤ 10) :
    ((aggregateGenres artists).map fun g => g.percentage).sum = 1 := by
  rw [aggregateGenres_eq]
  have hlen : (sortDesc (fun g => g.weight) (aggregatedEntries artists)).length ≤ 10 := by
    rw [sortDesc_length, aggregatedEntries, List.length_map]
    exact h10
  rw [List.take_of_length_le hlen]
  have hperm := (sortDesc_perm (fun g => g.weight) (aggregatedEntries artists)).map
    fun g => g.percentage
  rw [hperm.sum_eq]
  unfold aggregatedEntries
  rw [List.map_map]
  have heq : ((genreOrder artists).map
      ((fun g => g.percentage) ∘ fun g =>
        GenreWeight.mk g (genreWeightFrom 0 artists g)
          (genreWeightFrom 0 artists g / totalGenreWeight artists))).sum =
      ((genreOrder artists).map fun g =>
        genreWeightFrom 0 artists g / totalGenreWeight artists).sum := rfl
  rw [heq, map_div_sum, ← totalGenreWeight]
  exact div_self (ne_of_gt (totalGenreWeight_pos artists h1))

/-- C1 counterexample: one artist carrying 11 distinct genre tags is a
non-empty artist list whose genre-share percentages sum to `10 / 11`,
which is farther than `1e-9` from 1 — the truncation to the top 10 genres
happens after the percentages are computed over all 11. -/
theorem aggregateGenres_sum_counterexample :
    ((aggregateGenres [⟨"a", "A",
        ["g01", "g02", "g03", "g04", "g05", "g06", "g07", "g08", "g09", "g10", "g11"],
        50⟩]).map fun g => g.percentage).sum = 10/11 ∧
      ¬ |((aggregateGenres [⟨"a", "A",
        ["g01", "g02", "g03", "g04", "g05", "g06", "g07", "g08", "g09", "g10", "g11"],
        50⟩]).map fun g => g.percentage).sum - 1| ≤ 1/1000000000 := by
  have h : ((aggregateGenres [⟨"a", "A",
      ["g01", "g02", "g03", "g04", "g05", "g06", "g07", "g08", "g09", "g10", "g11"],
      50⟩]).map fun g => g.percentage).sum = 10/11 := by
    simp [aggregateGenres, genreCountsMap, genreContributions, genreContributionsFrom,
      jsAccum, jsSet, jsGet, jsValues, sortDesc, insertDesc]
    norm_num [insertDesc]
  refine ⟨h, ?_⟩
  rw [h]
  rw [show |(10 : ℚ)/11 - 1| = 1/11 by norm_num [abs_of_nonpos]]
  norm_num

/-- C1 (amended): for every artist list whose accumulated distinct-genre
count is between 1 and 10, the percentages of the returned genre-share
list sum to 1 within `1e-9` (indeed exactly); an empty artist list yields
the empty list.  The original claim fails both when no artist carries a
genre tag and when more than 10 distinct genres accumulate, since
percentages are taken over all genres before the top-10 truncation. -/
theorem aggregateGenres_sum_spec :
    (∀ artists : List SpotifyArtist, genreOrder artists ≠ [] →
      (genreOrder artists).length ≤ 10 →
      |((aggregateGenres artists).map fun g => g.percentage).sum - 1| ≤ 1/1000000000) ∧
      aggregateGenres [] = [] := by
  constructor
  · intro artists h1 h10
    rw [aggregateGenres_sum_eq_one artists h1 h10]
    norm_num
  · rfl

/-- Witness for C1: the three-artist scenario satisfies the hypotheses and
the tolerance bound. -/
theorem aggregateGenres_sum_spec_witness :
    |((aggregateGenres
        [⟨"a0", "A0", ["g0"], 10⟩, ⟨"a1", "A1", ["g1"], 10⟩, ⟨"a2", "A2", ["g2"], 10⟩]).map
          fun g => g.percentage).sum - 1| ≤ 1/1000000000 :=
  aggregateGenres_sum_spec.1
    [⟨"a0", "A0", ["g0"], 10⟩, ⟨"a1", "A1", ["g1"], 10⟩, ⟨"a2", "A2", ["g2"], 10⟩]
    (by simp [genreOrder, genreContributions, genreContributionsFrom, dedupFirst])
    (by simp [genreOrder, genreContributions, genreContributionsFrom, dedupFirst])

theorem genreWeightFrom_eq_sum (artists : List SpotifyArtist) (g : String) :
    genreWeightFrom 0 artists g =
      (((genreContributions artists).filter fun p => decide (p.1 = g)).map Prod.snd).sum := by
  rw [genreWeightFrom, foldl_add_snd, zero_add]
  rfl

/-- C6: the genre-aggregation contract.  The first conjunct states that
the output is exactly the top 10 of the stable descending sort (by
accumulated weight) of the genre entries taken in first-encounter order —
`sortDesc` inserts a new element after every element of key at least as
large, so equal-weight genres keep their first-encountered relative
order; the second that the transformer copy agrees with it; the third
gives, for every returned entry, the accumulated weight `Σ 1 / (i + 1)`
over the contributing artist positions and
`percentage = weight / Σ weights` over all accumulated genres; the fourth
is descending-weight sortedness; then the empty case, Scenario A
(weights `1, 1/2, 1/3`, percentages `6/11, 3/11, 2/11`, top genre from
artist 0), and an equal-weight tie kept in first-encountered order. -/
theorem aggregateGenres_contract :
    (∀ artists : List SpotifyArtist,
      aggregateGenres artists =
        (sortDesc (fun g => g.weight) (aggregatedEntries artists)).take 10) ∧
    (∀ artists : List SpotifyArtist,
      aggregateGenresFromArtists artists = aggregateGenres artists) ∧
    (∀ (artists : List SpotifyArtist) (gw : GenreWeight), gw ∈ aggregateGenres artists →
      gw.weight =
        (((genreContributions artists).filter fun p => decide (p.1 = gw.name)).map
          Prod.snd).sum ∧
      gw.percentage = gw.weight / totalGenreWeight artists) ∧
    (∀ artists : List SpotifyArtist,
      (aggregateGenres artists).Sorted fun a b => b.weight ≤ a.weight) ∧
    aggregateGenres [] = [] ∧
    aggregateGenres
        [⟨"a0", "A0", ["g0"], 10⟩, ⟨"a1", "A1", ["g1"], 10⟩, ⟨"a2", "A2", ["g2"], 10⟩] =
      [⟨"g0", 1, 6/11⟩, ⟨"g1", 1/2, 3/11⟩, ⟨"g2", 1/3, 2/11⟩] ∧
    aggregateGenres [⟨"a", "A", ["gx", "gy"], 50⟩] =
      [⟨"gx", 1, 1/2⟩, ⟨"gy", 1, 1/2⟩] := by
  refine ⟨fun artists => aggregateGenres_eq artists,
    fun artists => aggregateGenresFromArtists_eq artists, ?_, ?_, rfl, ?_, ?_⟩
  · intro artists gw hmem
    rw [aggregateGenres_eq] at hmem
    have hmem2 := List.take_subset 10 _ hmem
    have hmem3 := (sortDesc_perm (fun g => g.weight) (aggregatedEntries artists)).mem_iff.mp
      hmem2
    rw [aggregatedEntries, List.mem_map] at hmem3
    obtain ⟨g, _, rfl⟩ := hmem3
    exact ⟨genreWeightFrom_eq_sum artists g, rfl⟩
  · intro artists
    rw [aggregateGenres_eq]
    have hs := sortDesc_sorted (fun g => g.weight) (aggregatedEntries artists)
    exact List.Pairwise.sublist (List.take_sublist 10 _) hs
  · simp [aggregateGenres, genreCountsMap, genreContributions, genreContributionsFrom,
      jsAccum, jsSet, jsGet, jsValues, sortDesc, insertDesc]
    norm_num [insertDesc]
  · simp [aggregateGenres, genreCountsMap, genreContributions, genreContributionsFrom,
      jsAccum, jsSet, jsGet, jsValues, sortDesc, insertDesc]
    norm_num

theorem entropy_fold (total : ℚ) (gs : List GenreWeight) (a : ℝ) :
    gs.foldl (fun e g =>
      if 0 < (g.weight : ℝ) / ((total : ℚ) : ℝ) then
        e - (g.weight : ℝ) / ((total : ℚ) : ℝ) *
          Real.logb 2 ((g.weight : ℝ) / ((total : ℚ) : ℝ))
      else e) a =
    a + (gs.map fun g =>
      if 0 < (g.weight : ℝ) / ((total : ℚ) : ℝ) then
        -((g.weight : ℝ) / ((total : ℚ) : ℝ) *
          Real.logb 2 ((g.weight : ℝ) / ((total : ℚ) : ℝ)))
      else 0).sum := by
  induction gs generalizing a with
  | nil => simp
  | cons g rest ih =>
      rw [List.foldl_cons, ih, List.map_cons, List.sum_cons]
      by_cases hp : 0 < (g.weight : ℝ) / ((total : ℚ) : ℝ)
      · simp only [hp, if_pos, sub_eq_add_neg, add_assoc]
      · simp only [hp, if_neg, not_false_iff, add_zero, zero_add, add_assoc]

theorem sum_const_list {R : Type} [Semiring R] (l : List R) (c : R)
    (h : ∀ x ∈ l, x = c) : l.sum = l.length * c := by
  induction l with
  | nil => simp
  | cons x xs ih =>
      rw [List.sum_cons, List.length_cons, h x (by simp),
        ih fun y hy => h y (by simp [hy])]
      push_cast
      rw [add_mul, one_mul, add_comm]

/-- A non-empty list of genres of one common positive weight has entropy
`log2` of its length. -/
theorem calculateGenreEntropy_equal (gs : List GenreWeight) (w : ℚ) (hw : 0 < w)
    (hall : ∀ g ∈ gs, g.weight = w) (hne : gs ≠ []) :
    calculateGenreEntropy gs = Real.logb 2 gs.length := by
  have hk : 0 < gs.length := List.length_pos.mpr hne
  have hkR : (0 : ℝ) < gs.length := by exact_mod_cast hk
  have htot : (gs.map fun g => g.weight).sum = gs.length * w := by
    have h := sum_const_list (gs.map fun g => g.weight) w (by
      intro x hx
      rw [List.mem_map] at hx
      obtain ⟨g, hg, rfl⟩ := hx
      exact hall g hg)
    rwa [List.length_map] at h
  have hp : ∀ g ∈ gs, ((g.weight : ℝ) / (((gs.map fun g => g.weight).sum : ℚ) : ℝ)) =
      1 / gs.length := by
    intro g hg
    rw [hall g hg, htot]
    push_cast
    rw [div_eq_div_iff (by positivity) (by positivity)]
    ring
  rw [calculateGenreEntropy, if_neg hne]
  simp only [entropy_fold, zero_add]
  have hterm : ∀ x ∈ gs.map fun g =>
      if 0 < (g.weight : ℝ) / (((gs.map fun g => g.weight).sum : ℚ) : ℝ) then
        -((g.weight : ℝ) / (((gs.map fun g => g.weight).sum : ℚ) : ℝ) *
          Real.logb 2 ((g.weight : ℝ) / (((gs.map fun g => g.weight).sum : ℚ) : ℝ)))
      else 0,
      x = -((1 / gs.length : ℝ) * Real.logb 2 (1 / gs.length)) := by
    intro x hx
    rw [List.mem_map] at hx
    obtain ⟨g, hg, rfl⟩ := hx
    simp only [hp g hg]
    rw [if_pos (by positivity)]
  rw [sum_const_list _ _ hterm, List.length_map]
  rw [one_div, Real.logb_inv]
  have : (gs.length : ℝ) * -((gs.length : ℝ)⁻¹ * -Real.logb 2 (gs.length : ℝ)) =
      ((gs.length : ℝ) * (gs.length : ℝ)⁻¹) * Real.logb 2 (gs.length : ℝ) := by ring
  rw [this, mul_inv_cancel₀ (ne_of_gt hkR), one_mul]

/-- C10: `entropy([]) = 0`, and the entropy of `k` equally-weighted
genres is `log2(k)` for `k` in `{1, 2, 4, 8}` (any common positive
weight). -/
theorem calculateGenreEntropy_spec :
    calculateGenreEntropy [] = 0 ∧
    ∀ (w : ℚ) (gs : List GenreWeight), 0 < w → (∀ g ∈ gs, g.weight = w) →
      (gs.length = 1 ∨ gs.length = 2 ∨ gs.length = 4 ∨ gs.length = 8) →
      calculateGenreEntropy gs = Real.logb 2 gs.length := by
  constructor
  · simp [calculateGenreEntropy]
  · intro w gs hw hall hk
    have hne : gs ≠ [] := by
      intro h
      subst h
      simp at hk
    exact calculateGenreEntropy_equal gs w hw hall hne

/-- Witness for C10: two genres of weight 1 have entropy `log2 2 = 1`. -/
theorem calculateGenreEntropy_spec_witness :
    calculateGenreEntropy [⟨"ga", 1, 1/2⟩, ⟨"gb", 1, 1/2⟩] =
      Real.logb 2 ([⟨"ga", 1, 1/2⟩, ⟨"gb", 1, 1/2⟩] : List GenreWeight).length :=
  calculateGenreEntropy_spec.2 1 [⟨"ga", 1, 1/2⟩, ⟨"gb", 1, 1/2⟩] (by norm_num)
    (by
      intro g hg
      rcases List.mem_cons.mp hg with h | h
      · rw [h]
      · rw [List.mem_singleton.mp h])
    (by simp)

theorem filter_map_sum_le (gs : List GenreWeight) (q : GenreWeight → Bool)
    (h : ∀ g ∈ gs, 0 ≤ g.weight) :
    ((gs.filter q).map fun g => g.weight).sum ≤ (gs.map fun g => g.weight).sum := by
  induction gs with
  | nil => simp
  | cons g rest ih =>
      have hg := h g (by simp)
      have hrest := ih fun x hx => h x (by simp [hx])
      rw [List.filter_cons]
      by_cases hq : q g
      · simp only [hq, if_pos, List.map_cons, List.sum_cons]
        exact add_le_add_left hrest _
      · simp only [hq, Bool.false_eq_true, if_neg, not_false_iff, List.map_cons,
          List.sum_cons]
        calc ((rest.filter q).map fun g => g.weight).sum ≤
            (rest.map fun g => g.weight).sum := hrest
          _ ≤ g.weight + (rest.map fun g => g.weight).sum := le_add_of_nonneg_left hg

theorem nonneg_map_sum (gs : List GenreWeight) (h : ∀ g ∈ gs, 0 ≤ g.weight) :
    0 ≤ (gs.map fun g => g.weight).sum := by
  apply List.sum_nonneg
  intro x hx
  rw [List.mem_map] at hx
  obtain ⟨g, hg, rfl⟩ := hx
  exact h g hg

/-- C8 counterexample: a nonempty genre-share list with non-negative
weights on which the source computes `0/0` — `NaN`, not a number in
`[0, 1]` — because every weight is `0`: the claimed bound fails inside
the claimed domain. -/
theorem mainstream_nan_counterexample :
    calculateMainstreamPercentageJs [⟨"pop", 0, 0⟩] = none ∧
      (∀ g ∈ [(⟨"pop", 0, 0⟩ : GenreWeight)], 0 ≤ g.weight) ∧
      [(⟨"pop", 0, 0⟩ : GenreWeight)] ≠ [] := by
  refine ⟨?_, ?_, by simp⟩
  · simp [calculateMainstreamPercentageJs, jsDiv]
  · intro g hg
    rw [List.mem_singleton.mp hg]

/-- C8 (amended): for a genre-share list with non-negative weights whose
total weight is positive, the mainstream percentage is a well-defined
rational in `[0, 1]` (the partial-division reading agrees with the total
one); the empty list gives `0` by the early return; a nonempty list with
zero total weight hits the `0/0` division and yields no number at all.
The profile `nightRatio` lies in `[0, 1]` for every play history, `0`
on the empty one. -/
theorem mainstream_nightRatio_bounds :
    (∀ gs : List GenreWeight, (∀ g ∈ gs, 0 ≤ g.weight) →
      0 < (gs.map fun g => g.weight).sum →
      calculateMainstreamPercentageJs gs = some (calculateMainstreamPercentage gs) ∧
        0 ≤ calculateMainstreamPercentage gs ∧ calculateMainstreamPercentage gs ≤ 1) ∧
    calculateMainstreamPercentageJs [] = some 0 ∧
    (∀ gs : List GenreWeight, gs ≠ [] → (gs.map fun g => g.weight).sum = 0 →
      calculateMainstreamPercentageJs gs = none) ∧
    (∀ (ph : List SpotifyPlayHistory) (af : List (String × SpotifyAudioFeatures)),
      0 ≤ (analyzeNocturnalBehavior ph af).nightRatio ∧
        (analyzeNocturnalBehavior ph af).nightRatio ≤ 1) ∧
    (∀ af : List (String × SpotifyAudioFeatures),
      (analyzeNocturnalBehavior [] af).nightRatio = 0) := by
  refine ⟨?_, rfl, ?_, ?_, fun af => rfl⟩
  · intro gs h htot
    have hnil : gs ≠ [] := by
      intro hgs
      rw [hgs] at htot
      simp at htot
    have hmw := nonneg_map_sum (gs.filter fun g => isMainstreamGenre g.name)
      fun g hg => h g (List.mem_of_mem_filter hg)
    have hle := filter_map_sum_le gs (fun g => isMainstreamGenre g.name) h
    refine ⟨?_, ?_, ?_⟩
    · rw [calculateMainstreamPercentageJs, if_neg hnil,
        calculateMainstreamPercentage, if_neg hnil]
      rw [jsDiv, if_neg (ne_of_gt htot)]
    · rw [calculateMainstreamPercentage, if_neg hnil]
      exact div_nonneg hmw (le_of_lt htot)
    · rw [calculateMainstreamPercentage, if_neg hnil]
      exact (div_le_one htot).mpr hle
  · intro gs hnil htot
    rw [calculateMainstreamPercentageJs, if_neg hnil, jsDiv, if_pos htot]
  · intro ph af
    have hfield : (analyzeNocturnalBehavior ph af).nightRatio =
        if 0 < ph.length then
          (((ph.filter fun p => isNightTime p.played_at).length : ℚ) / ph.length)
        else 0 := rfl
    rw [hfield]
    by_cases hlen : 0 < ph.length
    · rw [if_pos hlen]
      have hle : ((ph.filter fun p => isNightTime p.played_at).length : ℚ) ≤
          (ph.length : ℚ) := by
        exact_mod_cast List.length_filter_le _ ph
      have hlenq : (0 : ℚ) < ph.length := by exact_mod_cast hlen
      exact ⟨div_nonneg (by positivity) (le_of_lt hlenq), (div_le_one hlenq).mpr hle⟩
    · rw [if_neg hlen]
      norm_num

/-- Witness for C8: a singleton mainstream genre-share list with positive
weight. -/
theorem mainstream_nightRatio_bounds_witness :
    calculateMainstreamPercentageJs [⟨"pop", 2, 1⟩] =
        some (calculateMainstreamPercentage [⟨"pop", 2, 1⟩]) ∧
      0 ≤ calculateMainstreamPercentage [⟨"pop", 2, 1⟩] ∧
      calculateMainstreamPercentage [⟨"pop", 2, 1⟩] ≤ 1 :=
  mainstream_nightRatio_bounds.1 [⟨"pop", 2, 1⟩]
    (by
      intro g hg
      rw [List.mem_singleton.mp hg]
      norm_num)
    (by
      simp only [List.map_cons, List.map_nil, List.sum_cons, List.sum_nil]
      norm_num)

theorem melancholyRuns_cons (p : SpotifyAudioFeatures × String)
    (ps : List (SpotifyAudioFeatures × String)) :
    melancholyRuns (p :: ps) =
      if lowSample p then
        (p :: ps.takeWhile lowSample) :: melancholyRuns (ps.dropWhile lowSample)
      else melancholyRuns ps := by
  rw [melancholyRuns.eq_def]

theorem melancholyGo_spec (rest : List (SpotifyAudioFeatures × String)) :
    ∀ pending, (∀ p ∈ pending, lowSample p = true) →
      melancholyGo pending rest =
        ((runsWithPending pending rest).filter fun run => decide (3 ≤ run.length)).map
          mkMelancholyRange := by
  induction rest with
  | nil =>
      intro pending _
      rw [melancholyGo, runsWithPending]
      by_cases hp : pending = []
      · subst hp
        simp [melancholyRuns]
      · rw [if_neg hp]
        simp only [List.takeWhile_nil, List.dropWhile_nil, List.append_nil,
          melancholyRuns, List.filter_cons]
        by_cases h3 : 3 ≤ pending.length
        · rw [if_pos h3, if_pos (by simpa using h3)]
          simp [melancholyRuns]
        · rw [if_neg h3, if_neg (by simpa using h3)]
          simp [melancholyRuns]
  | cons p ps ih =>
      intro pending hpend
      rw [melancholyGo]
      by_cases hlow : p.1.valence < 35/100
      · rw [if_pos hlow]
        have hlowb : lowSample p = true := by simp [lowSample, hlow]
        rw [ih (pending ++ [p]) (by
          intro q hq
          rcases List.mem_append.mp hq with h | h
          · exact hpend q h
          · rw [List.mem_singleton.mp h]; exact hlowb)]
        rw [runsWithPending, runsWithPending, if_neg (by simp)]
        by_cases hp : pending = []
        · subst hp
          rw [if_pos rfl, melancholyRuns_cons, if_pos hlowb]
          simp
        · rw [if_neg hp]
          rw [List.takeWhile_cons, if_pos hlowb, List.dropWhile_cons, if_pos hlowb]
          simp
      · rw [if_neg hlow]
        have hlowb : lowSample p = false := by simp [lowSample, hlow]
        rw [ih [] (by intro q hq; simp at hq)]
        rw [runsWithPending, runsWithPending, if_pos rfl]
        by_cases hp : pending = []
        · subst hp
          rw [if_pos rfl, melancholyRuns_cons]
          simp [hlowb]
        · rw [if_neg hp]
          simp only [List.takeWhile_cons, List.dropWhile_cons, hlowb, Bool.false_eq_true,
            if_false, List.append_nil]
          rw [melancholyRuns_cons]
          simp only [hlowb, Bool.false_eq_true, if_false]
          rw [List.filter_cons]
          by_cases h3 : 3 ≤ pending.length
          · rw [if_pos h3, if_pos (by simpa using h3)]
            simp
          · rw [if_neg h3, if_neg (by simpa using h3)]
            simp

theorem melancholyRuns_nil : melancholyRuns [] = [] := by
  rw [melancholyRuns.eq_def]

theorem melancholyRuns_low (l : List (SpotifyAudioFeatures × String)) :
    ∀ run ∈ melancholyRuns l, run ≠ [] ∧ ∀ p ∈ run, p.1.valence < 35/100 := by
  induction l using melancholyRuns.induct with
  | case1 => intro run h; simp [melancholyRuns] at h
  | case2 p ps hlow ih =>
      intro run hrun
      rw [melancholyRuns, if_pos hlow] at hrun
      rcases List.mem_cons.mp hrun with h | h
      · subst h
        refine ⟨by simp, ?_⟩
        intro q hq
        rcases List.mem_cons.mp hq with h | h
        · subst h
          simpa [lowSample] using hlow
        · have := List.mem_takeWhile_imp h
          simpa [lowSample] using this
      · exact ih run h
  | case3 p ps hlow ih =>
      intro run hrun
      rw [melancholyRuns, if_neg hlow] at hrun
      exact ih run hrun

/-- Witness for C6: the per-entry weight and percentage formulas at the
top entry of Scenario A. -/
theorem aggregateGenres_contract_witness :
    (GenreWeight.mk "g0" 1 (6/11)).weight =
      (((genreContributions
          [⟨"a0", "A0", ["g0"], 10⟩, ⟨"a1", "A1", ["g1"], 10⟩, ⟨"a2", "A2", ["g2"], 10⟩]).filter
            fun p => decide (p.1 = (GenreWeight.mk "g0" 1 (6/11)).name)).map Prod.snd).sum ∧
    (GenreWeight.mk "g0" 1 (6/11)).percentage =
      (GenreWeight.mk "g0" 1 (6/11)).weight /
        totalGenreWeight
          [⟨"a0", "A0", ["g0"], 10⟩, ⟨"a1", "A1", ["g1"], 10⟩, ⟨"a2", "A2", ["g2"], 10⟩] :=
  aggregateGenres_contract.2.2.1
    [⟨"a0", "A0", ["g0"], 10⟩, ⟨"a1", "A1", ["g1"], 10⟩, ⟨"a2", "A2", ["g2"], 10⟩]
    (GenreWeight.mk "g0" 1 (6/11))
    (by
      simp [aggregateGenres, genreCountsMap, genreContributions, genreContributionsFrom,
        jsAccum, jsSet, jsGet, jsValues, sortDesc, insertDesc]
      norm_num [insertDesc])

/-- C7: `findMelancholyLoops` returns exactly the maximal contiguous runs
(`takeWhile`/`dropWhile` decomposition, trailing run flushed) of
consecutive chronological samples with valence below 0.35 that have
length at least 3, each recorded with start/end timestamp, mean valence
and length; every run of the decomposition is non-empty and wholly below
the threshold; the valence sequence `[0.1, 0.2, 0.15, 0.5]` yields
exactly one run over indices 0–2 with mean valence `0.15`. -/
theorem findMelancholyLoops_spec :
    (∀ (tracks : List SpotifyAudioFeatures) (timestamps : List String),
      findMelancholyLoops tracks timestamps =
        ((melancholyRuns (tracks.zip timestamps)).filter fun run =>
          decide (3 ≤ run.length)).map mkMelancholyRange) ∧
    (∀ (l : List (SpotifyAudioFeatures × String)) (run : List (SpotifyAudioFeatures × String)),
      run ∈ melancholyRuns l → run ≠ [] ∧ ∀ p ∈ run, p.1.valence < 35/100) ∧
    findMelancholyLoops
        [⟨"t0", 1/10, 1/2, 120⟩, ⟨"t1", 2/10, 1/2, 120⟩, ⟨"t2", 15/100, 1/2, 120⟩,
         ⟨"t3", 5/10, 1/2, 120⟩] ["s0", "s1", "s2", "s3"] =
      [⟨"s0", "s2", 3/20, 3⟩] := by
  refine ⟨?_, ?_, ?_⟩
  · intro tracks timestamps
    rw [findMelancholyLoops, melancholyGo_spec _ [] (by intro q hq; simp at hq),
      runsWithPending, if_pos rfl]
  · intro l run hrun
    exact melancholyRuns_low l run hrun
  · norm_num [findMelancholyLoops, melancholyGo, mkMelancholyRange, average, List.zip]
    norm_num [melancholyGo, mkMelancholyRange, average]
    simp

/-- Witness for C7: the single Scenario B run is non-empty and entirely
below the 0.35 threshold. -/
theorem findMelancholyLoops_spec_witness :
    ([((⟨"t0", 1/10, 1/2, 120⟩ : SpotifyAudioFeatures), "s0"),
      (⟨"t1", 2/10, 1/2, 120⟩, "s1"), (⟨"t2", 15/100, 1/2, 120⟩, "s2")] :
        List (SpotifyAudioFeatures × String)) ≠ [] ∧
    ∀ p ∈ ([((⟨"t0", 1/10, 1/2, 120⟩ : SpotifyAudioFeatures), "s0"),
      (⟨"t1", 2/10, 1/2, 120⟩, "s1"), (⟨"t2", 15/100, 1/2, 120⟩, "s2")] :
        List (SpotifyAudioFeatures × String)), p.1.valence < 35/100 :=
  findMelancholyLoops_spec.2.1
    [((⟨"t0", 1/10, 1/2, 120⟩ : SpotifyAudioFeatures), "s0"),
     (⟨"t1", 2/10, 1/2, 120⟩, "s1"), (⟨"t2", 15/100, 1/2, 120⟩, "s2"),
     (⟨"t3", 5/10, 1/2, 120⟩, "s3")]
    [(⟨"t0", 1/10, 1/2, 120⟩, "s0"), (⟨"t1", 2/10, 1/2, 120⟩, "s1"),
     (⟨"t2", 15/100, 1/2, 120⟩, "s2")]
    (by norm_num [melancholyRuns_cons, lowSample, List.takeWhile, List.dropWhile])

theorem trackSeq_fold (audioFeatures : List (String × SpotifyAudioFeatures))
    (occ : List SpotifyPlayHistory) (s : TrackSeq) :
    occ.foldl (fun s p =>
      TrackSeq.mk (s.count + 1) (s.timestamps ++ [p.played_at])
        (s.valences ++
          (match jsGet audioFeatures p.track.id with
           | some f => [f.valence]
           | none => []))) s =
      TrackSeq.mk (s.count + occ.length) (s.timestamps ++ occ.map fun p => p.played_at)
        (s.valences ++ occ.filterMap fun p =>
          (jsGet audioFeatures p.track.id).map fun f => f.valence) := by
  induction occ generalizing s with
  | nil => simp
  | cons p ps ih =>
      rw [List.foldl_cons, ih]
      simp only [List.map_cons, List.filterMap_cons, List.length_cons]
      rcases h : jsGet audioFeatures p.track.id with _ | f
    

      · simp [h, List.append_assoc]
        omega
      · simp [h, List.append_assoc]
        omega

theorem trackSequencesOf_eq (playHistory : List SpotifyPlayHistory)
    (audioFeatures : List (String × SpotifyAudioFeatures)) :
    trackSequencesOf playHistory audioFeatures =
      (dedupFirst (playHistory.map fun p => p.track.id)).map fun tid =>
        (tid, TrackSeq.mk (repeatOccurrences playHistory tid).length
          ((repeatOccurrences playHistory tid).map fun p => p.played_at)
          ((repeatOccurrences playHistory tid).filterMap fun p =>
            (jsGet audioFeatures p.track.id).map fun f => f.valence)) := by
  have h := jsAccum_getD_eq (fun p : SpotifyPlayHistory => p.track.id)
    (fun (s : TrackSeq) (p : SpotifyPlayHistory) =>
      TrackSeq.mk (s.count + 1) (s.timestamps ++ [p.played_at])
        (s.valences ++
          (match jsGet audioFeatures p.track.id with
           | some f => [f.valence]
           | none => [])))
    (TrackSeq.mk 0 [] []) playHistory
  rw [trackSequencesOf.eq_def]
  rw [show (jsAccum (fun p : SpotifyPlayHistory => p.track.id)
      (fun o p =>
        TrackSeq.mk ((o.getD (TrackSeq.mk 0 [] [])).count + 1)
          ((o.getD (TrackSeq.mk 0 [] [])).timestamps ++ [p.played_at])
          ((o.getD (TrackSeq.mk 0 [] [])).valences ++
            (match jsGet audioFeatures p.track.id with
             | some f => [f.valence]
             | none => []))) [] playHistory) =
    jsAccum (fun p : SpotifyPlayHistory => p.track.id)
      (fun o p =>
        (fun s p =>
          TrackSeq.mk (s.count + 1) (s.timestamps ++ [p.played_at])
            (s.valences ++
              (match jsGet audioFeatures p.track.id with
               | some f => [f.valence]
               | none => []))) (o.getD (TrackSeq.mk 0 [] [])) p) [] playHistory from rfl]
  rw [h]
  apply List.map_congr_left
  intro tid _
  rw [trackSeq_fold]
  simp [repeatOccurrences]

theorem filterMap_guard_eq {α β : Type} (g : α → β) (q : β → Bool) (p : α → Prop)
    [DecidablePred p] (hpq : ∀ a, p a ↔ q (g a) = true) (l : List α) :
    (l.filterMap fun a => if p a then some (g a) else none) = (l.map g).filter q := by
  induction l with
  | nil => rfl
  | cons a rest ih =>
      rw [List.filterMap_cons, List.map_cons, List.filter_cons]
      by_cases hpa : p a
      · rw [if_pos hpa, if_pos ((hpq a).mp hpa), ih]
      · rw [if_neg hpa, if_neg (fun hc => hpa ((hpq a).mpr hc)), ih]

theorem detectRepeatLoops_eq (playHistory : List SpotifyPlayHistory)
    (audioFeatures : List (String × SpotifyAudioFeatures)) :
    detectRepeatLoops playHistory audioFeatures =
      sortDesc (fun l => (l.count : ℚ))
        (((dedupFirst (playHistory.map fun p => p.track.id)).map
          (repeatLoopSpec playHistory audioFeatures)).filter
            fun l => decide (2 ≤ l.count)) := by
  simp only [detectRepeatLoops.eq_def]
  rw [trackSequencesOf_eq]
  congr 1
  rw [List.filterMap_map]
  exact filterMap_guard_eq (repeatLoopSpec playHistory audioFeatures)
    (fun l => decide (2 ≤ l.count))
    (fun tid => 2 ≤ (repeatOccurrences playHistory tid).length)
    (fun tid => by simp [repeatLoopSpec]) _

/-- C4 counterexample: two daytime plays of the same track form a group
of count 2, but the repeat-loop list emitted in the circadian profile
(`loops`) is empty, because the profile keeps only loops with at least
one night-time occurrence. -/
theorem nocturnalProfile_loops_counterexample :
    (analyzeNocturnalBehavior
      [⟨⟨"t1", "Song", [], 200000⟩, "2024-01-15T12:00:00Z"⟩,
       ⟨⟨"t1", "Song", [], 200000⟩, "2024-01-15T13:00:00Z"⟩] []).loops = [] ∧
    ((detectRepeatLoops
      [⟨⟨"t1", "Song", [], 200000⟩, "2024-01-15T12:00:00Z"⟩,
       ⟨⟨"t1", "Song", [], 200000⟩, "2024-01-15T13:00:00Z"⟩] []).map fun l => l.count) =
      [2] := by
  have h1 : getHourFromTimestamp "2024-01-15T12:00:00Z" = 12 := by decide
  have h2 : getHourFromTimestamp "2024-01-15T13:00:00Z" = 13 := by decide
  have hd : detectRepeatLoops
      [⟨⟨"t1", "Song", [], 200000⟩, "2024-01-15T12:00:00Z"⟩,
       ⟨⟨"t1", "Song", [], 200000⟩, "2024-01-15T13:00:00Z"⟩] [] =
      [⟨"t1", "Song", 2, 1/2,
        ["2024-01-15T12:00:00Z", "2024-01-15T13:00:00Z"]⟩] := by
    rw [detectRepeatLoops_eq]
    norm_num [dedupFirst, repeatLoopSpec, repeatOccurrences, jsGet, jsOrS, List.find?,
      sortDesc, insertDesc]
    simp
  constructor
  · have hfield : (analyzeNocturnalBehavior
      [⟨⟨"t1", "Song", [], 200000⟩, "2024-01-15T12:00:00Z"⟩,
       ⟨⟨"t1", "Song", [], 200000⟩, "2024-01-15T13:00:00Z"⟩] []).loops =
      (detectRepeatLoops
        [⟨⟨"t1", "Song", [], 200000⟩, "2024-01-15T12:00:00Z"⟩,
         ⟨⟨"t1", "Song", [], 200000⟩, "2024-01-15T13:00:00Z"⟩] []).filter
          fun l => l.timestamps.any fun t => isNightTime t := rfl
    rw [hfield, hd]
    norm_num [isNightTime, h1, h2]
  · rw [hd]
    rfl

/-- C4 (amended): `detectRepeatLoops` groups all events by track id in
first-encounter order, keeps exactly the groups with count at least 2
with mean valence over matched samples (0.5 with none) and the
timestamps in order, stably sorted by descending count; the circadian
profile then emits only the night subset: `loops` is the sublist with at
least one night-time occurrence and `sadnessLoops` its
`avgValence < 0.4` subset. -/
theorem detectRepeatLoops_spec :
    (∀ (ph : List SpotifyPlayHistory) (af : List (String × SpotifyAudioFeatures)),
      detectRepeatLoops ph af =
        sortDesc (fun l => (l.count : ℚ))
          (((dedupFirst (ph.map fun p => p.track.id)).map (repeatLoopSpec ph af)).filter
            fun l => decide (2 ≤ l.count))) ∧
    (∀ (ph : List SpotifyPlayHistory) (af : List (String × SpotifyAudioFeatures)),
      (detectRepeatLoops ph af).Sorted fun a b => (b.count : ℚ) ≤ (a.count : ℚ)) ∧
    (∀ (ph : List SpotifyPlayHistory) (af : List (String × SpotifyAudioFeatures)),
      (analyzeNocturnalBehavior ph af).loops =
        (detectRepeatLoops ph af).filter fun l => l.timestamps.any fun t => isNightTime t) ∧
    (∀ (ph : List SpotifyPlayHistory) (af : List (String × SpotifyAudioFeatures)),
      (analyzeNocturnalBehavior ph af).sadnessLoops =
        ((analyzeNocturnalBehavior ph af).loops).filter
          fun l => decide (l.avgValence < 4/10)) := by
  refine ⟨detectRepeatLoops_eq, ?_, fun ph af => rfl, fun ph af => rfl⟩
  intro ph af
  rw [detectRepeatLoops.eq_def]
  have hs := sortDesc_sorted (fun l : RepeatLoop => (l.count : ℚ))
    ((trackSequencesOf ph af).filterMap fun p =>
      if 2 ≤ p.2.count then
        some { trackId := p.1
               trackName :=
                 match ph.find? (fun q => decide (q.track.id = p.1)) with
                 | some q => jsOrS q.track.name "Unknown Track"
                 | none => "Unknown Track"
               count := p.2.count
               avgValence :=
                 if 0 < p.2.valences.length then p.2.valences.sum / p.2.valences.length
                 else 1/2
               timestamps := p.2.timestamps }
      else none)
  exact hs

theorem foldl_last (l : List SpotifyArtist) (d : SpotifyArtist) :
    l.foldl (fun _ a => a) d = l.getLastD d := by
  induction l generalizing d with
  | nil => rfl
  | cons a rest ih => rw [List.foldl_cons, ih, List.getLastD_cons]

/-- The window artist pool characterized: ids deduplicated in
first-encounter order, each mapped to the last artist record carrying
that id. -/
theorem uniqueArtistsOf_eq (tracks : List SpotifyTrack) :
    uniqueArtistsOf tracks =
      (dedupFirst ((tracks.flatMap fun t => t.artists).map fun a => a.id)).map fun aid =>
        ((tracks.flatMap fun t => t.artists).filter fun a => decide (a.id = aid)).getLastD
          ⟨"", "", [], 0⟩ := by
  rw [uniqueArtistsOf]
  have h := jsAccum_getD_eq (fun a : SpotifyArtist => a.id)
    (fun (_ : SpotifyArtist) (a : SpotifyArtist) => a) (⟨"", "", [], 0⟩ : SpotifyArtist)
    (tracks.flatMap fun t => t.artists)
  rw [show (jsAccum (fun a : SpotifyArtist => a.id) (fun _ a => a) []
      (tracks.flatMap fun t => t.artists)) =
    jsAccum (fun a : SpotifyArtist => a.id)
      (fun o a => (fun _ a => a) (o.getD (⟨"", "", [], 0⟩ : SpotifyArtist)) a) []
      (tracks.flatMap fun t => t.artists) from rfl, h]
  rw [jsValues, List.map_map]
  apply List.map_congr_left
  intro aid _
  exact foldl_last _ _

/-- C2 counterexample: one window track with two single-genre artists.
Uniform weighting across the two unique artists would give each genre a
share of `1/2`; the code weights the unique-artist list by position
(`1/(i+1)`), yielding shares `2/3` and `1/3`. -/
theorem buildQuarterlyProxy_uniform_counterexample :
    ((buildQuarterlyProxy
      ⟨[], [], [⟨"t1", "T1", [⟨"a1", "A1", ["jazz"], 10⟩, ⟨"a2", "A2", ["rock"], 20⟩],
        1000⟩]⟩ []).map fun q => q.topGenres.map fun g => g.percentage) =
      [[2/3, 1/3], [], []] ∧ ((2 : ℚ)/3 ≠ 1/3) := by
  constructor
  · simp [buildQuarterlyProxy, makeQuarter, uniqueArtistsOf, aggregateGenresFromArtists,
      genreCountsMap, genreContributions, genreContributionsFrom, jsAccum, jsSet, jsGet,
      jsValues, sortDesc, insertDesc, List.flatMap]
    norm_num [insertDesc]
  · norm_num

/-- C2 (amended): each quarterly-proxy window is built in the fixed order
long → Full Year, medium → Mid-Year, short → Recent; its genre shares are
aggregated over the window artist pool (ids deduplicated in
first-encounter order) with position-decayed weights `1/(i+1)` — not
uniform weights; the mainstream percentage is the window keyword
classifier applied to those shares; mean valence and energy come from
matched samples and fall back to 0.5 when no sample matched or when the
computed mean is 0 (the JS `|| 0.5`); the first 5 tracks are kept. -/
theorem buildQuarterlyProxy_spec :
    (∀ (bR : RangedTrackData) (af : List (String × SpotifyAudioFeatures)),
      buildQuarterlyProxy bR af =
        [makeQuarter af bR.long "Full Year", makeQuarter af bR.medium "Mid-Year",
         makeQuarter af bR.short "Recent"]) ∧
    (∀ (af : List (String × SpotifyAudioFeatures)) (tracks : List SpotifyTrack)
        (period : String),
      (makeQuarter af tracks period).topGenres =
        (sortDesc (fun g => g.weight) (aggregatedEntries (uniqueArtistsOf tracks))).take 10 ∧
      (makeQuarter af tracks period).mainstreamPercentage =
        calcMainstreamPct ((makeQuarter af tracks period).topGenres) ∧
      (makeQuarter af tracks period).averageValence =
        (if average (((tracks.filterMap fun t => jsGet af t.id).map fun f => f.valence)) = 0
         then 1/2
         else average (((tracks.filterMap fun t => jsGet af t.id).map fun f => f.valence))) ∧
      (makeQuarter af tracks period).averageEnergy =
        (if average (((tracks.filterMap fun t => jsGet af t.id).map fun f => f.energy)) = 0
         then 1/2
         else average (((tracks.filterMap fun t => jsGet af t.id).map fun f => f.energy))) ∧
      (makeQuarter af tracks period).topTracks = tracks.take 5 ∧
      (makeQuarter af tracks period).period = period) := by
  refine ⟨fun bR af => rfl, ?_⟩
  intro af tracks period
  refine ⟨?_, rfl, rfl, rfl, rfl, rfl⟩
  show aggregateGenresFromArtists (uniqueArtistsOf tracks) = _
  rw [aggregateGenresFromArtists_eq, aggregateGenres_eq]

theorem inferPsychologicalState_eq_spec (valenceStd : ℝ) (oscillationScore : ℚ)
    (copingSignals : List CopingSignal) :
    inferPsychologicalState valenceStd oscillationScore copingSignals =
      psychologicalStateSpec valenceStd oscillationScore copingSignals := by
  rw [inferPsychologicalState, psychologicalStateSpec]
  rcases h : copingSignals with _ | ⟨c, cs⟩
  · norm_num
  · have hlen : max (c :: cs).length 1 = (c :: cs).length := by
      simp [Nat.max_eq_left, Nat.succ_le_of_lt]
    rw [hlen]
    simp

/-- C3 counterexample: on the empty input the claimed decision procedure
ends at `emotional_stability`, but the profile field carries the prose
description mapped from that tag, not the categorical tag. -/
theorem psychologicalState_prose_counterexample :
    (calculateEmotionalProfile [] [] none none "2024-01-01T00:00:00Z").psychologicalState =
      "Your emotional listening patterns remained relatively consistent, suggesting a period of stability or contentment." ∧
    (calculateEmotionalProfile [] [] none none "2024-01-01T00:00:00Z").psychologicalState ≠
      "emotional_stability" := by
  have hfield : (calculateEmotionalProfile [] [] none none
      "2024-01-01T00:00:00Z").psychologicalState =
      getPsychologicalStateDescription
        (inferPsychologicalState (standardDeviation []) (detectEmotionalOscillation [])
          (identifyCopingMechanisms [] [] (findMelancholyLoops [] []))) := rfl
  have hstd : standardDeviation [] = 0 := by simp [standardDeviation]
  have hmel : findMelancholyLoops [] [] = [] := rfl
  have hcop : identifyCopingMechanisms [] [] [] = [] := by
    simp [identifyCopingMechanisms, repeatCountsOf, jsAccum, jsValues, sortDesc,
      standardDeviation]
  have hinf : inferPsychologicalState 0 (detectEmotionalOscillation []) [] =
      "emotional_stability" := by
    rw [inferPsychologicalState_eq_spec, psychologicalStateSpec]
    norm_num [detectEmotionalOscillation]
  rw [hfield, hmel, hcop, hstd, hinf]
  constructor
  · rfl
  · simp [getPsychologicalStateDescription]

/-- C3 (amended): the categorical decision (`inferPsychologicalState`) is
exactly the claimed cascade — mean severity (0 with no signals), then
the `0.7`/`0.4` severity, `0.25` valence-deviation and `0.1` oscillation
thresholds — and always lands on one of the five tags; but the
emotional profile stores `getPsychologicalStateDescription` of the tag
(prose), not the tag itself. -/
theorem psychologicalState_spec :
    (∀ (v : ℝ) (o : ℚ) (s : List CopingSignal),
      inferPsychologicalState v o s = psychologicalStateSpec v o s) ∧
    (∀ (v : ℝ) (o : ℚ) (s : List CopingSignal),
      inferPsychologicalState v o s = "intense_processing" ∨
      inferPsychologicalState v o s = "active_coping" ∨
      inferPsychologicalState v o s = "emotional_exploration" ∨
      inferPsychologicalState v o s = "emotional_oscillation" ∨
      inferPsychologicalState v o s = "emotional_stability") ∧
    (∀ (tracks : List SpotifyAudioFeatures) (timestamps : List String)
        (rawTrackIds : Option (List String))
        (featuresMap : Option (List (String × SpotifyAudioFeatures))) (now : String),
      (calculateEmotionalProfile tracks timestamps rawTrackIds featuresMap
          now).psychologicalState =
        getPsychologicalStateDescription
          (inferPsychologicalState (standardDeviation (tracks.map fun t => t.valence))
            (detectEmotionalOscillation tracks)
            (identifyCopingMechanisms (rawTrackIds.getD (tracks.map fun t => t.id))
              (featuresMap.getD (jsAccum (fun t => t.id) (fun _ t => t) [] tracks))
              (findMelancholyLoops tracks timestamps)))) := by
  refine ⟨inferPsychologicalState_eq_spec, ?_, fun tracks timestamps r f now => rfl⟩
  intro v o s
  rw [inferPsychologicalState]
  split
  · simp
  · split
    · simp
    · split
      · simp
      · split <;> simp

theorem detectPhaseShiftsGo_eq (rest : List QuarterlyListening) :
    ∀ prev, detectPhaseShiftsGo prev rest =
      ((prev :: rest).zip rest).filterMap fun pq =>
        open Classical in
        if isSignificantShift pq.1 pq.2 then some (mkPhaseTransition pq.1 pq.2) else none := by
  induction rest with
  | nil => intro prev; rfl
  | cons c rs ih =>
      intro prev
      rw [detectPhaseShiftsGo, List.zip_cons_cons, List.filterMap_cons]
      by_cases h : isSignificantShift prev c
      · rw [if_pos h, if_pos h, ih c]
        rfl
      · rw [if_neg h, if_neg h, ih c]
        rfl

theorem detectPhaseShifts_eq_spec (qd : List QuarterlyListening) :
    detectPhaseShifts qd = phaseShiftsSpec qd := by
  cases qd with
  | nil => rfl
  | cons q rest =>
      rw [detectPhaseShifts, phaseShiftsSpec, List.tail_cons]
      exact detectPhaseShiftsGo_eq rest q

theorem entropy_two_equal :
    calculateGenreEntropy [⟨"a", 1, 1/2⟩, ⟨"b", 1, 1/2⟩] = 1 := by
  have h := calculateGenreEntropy_equal [⟨"a", 1, 1/2⟩, ⟨"b", 1, 1/2⟩] 1 (by norm_num)
    (by
      intro g hg
      rcases List.mem_cons.mp hg with h | h
      · rw [h]
      · rw [List.mem_singleton.mp h])
    (by simp)
  rw [h]
  norm_num

theorem entropy_single :
    calculateGenreEntropy [⟨"c", 1, 1⟩] = 0 := by
  have h := calculateGenreEntropy_equal [⟨"c", 1, 1⟩] 1 (by norm_num)
    (by
      intro g hg
      rw [List.mem_singleton.mp hg])
    (by simp)
  rw [h]
  norm_num

theorem entropy_half_integer :
    calculateGenreEntropy [⟨"a", 2, 1/2⟩, ⟨"b", 1, 1/4⟩, ⟨"c", 1, 1/4⟩] = 3/2 := by
  have hhalf : Real.logb 2 ((1 : ℝ)/2) = -1 := by
    rw [one_div, Real.logb_inv, Real.logb_self_eq_one (by norm_num)]
  have hquarter : Real.logb 2 ((1 : ℝ)/4) = -2 := by
    rw [one_div, Real.logb_inv]
    rw [show (4 : ℝ) = 2 ^ (2 : ℕ) by norm_num, Real.logb_pow,
      Real.logb_self_eq_one (by norm_num)]
    norm_num
  rw [calculateGenreEntropy, if_neg (by simp)]
  simp only [entropy_fold, zero_add]
  norm_num
  rw [hhalf, hquarter]
  norm_num

/-- C5: phase-shift detection walks the quarterly windows pairwise in
list order — and `buildQuarterlyProxy` produces them in the fixed order
Full Year → Mid-Year → Recent — emitting a transition for a pair exactly
when `|entropyAfter − entropyBefore| > 0.5` (strictly) or the top genre
name changed.  Concretely: an exact entropy gap of `0.5` (windows with
entropies 1 and 3/2, same top genre) emits nothing, and three windows
with entropies `1, 0, 0` and an unchanged top genre between windows 2–3
emit exactly one transition, between windows 1–2. -/
theorem detectPhaseShifts_spec :
    (∀ (bR : RangedTrackData) (af : List (String × SpotifyAudioFeatures)),
      (buildQuarterlyProxy bR af).map (fun q => q.period) =
        ["Full Year", "Mid-Year", "Recent"]) ∧
    (∀ qd : List QuarterlyListening, detectPhaseShifts qd = phaseShiftsSpec qd) ∧
    detectPhaseShifts
      [⟨"Q1", [⟨"a", 1, 1/2⟩, ⟨"b", 1, 1/2⟩], 0, 1/2, 1/2, []⟩,
       ⟨"Q2", [⟨"a", 2, 1/2⟩, ⟨"b", 1, 1/4⟩, ⟨"c", 1, 1/4⟩], 0, 1/2, 1/2, []⟩] = [] ∧
    ((detectPhaseShifts
      [⟨"Full Year", [⟨"a", 1, 1/2⟩, ⟨"b", 1, 1/2⟩], 0, 1/2, 1/2, []⟩,
       ⟨"Mid-Year", [⟨"c", 1, 1⟩], 0, 1/2, 1/2, []⟩,
       ⟨"Recent", [⟨"c", 1, 1⟩], 0, 1/2, 1/2, []⟩]).map fun t => t.quarter) =
      ["Mid-Year"] := by
  refine ⟨fun bR af => rfl, detectPhaseShifts_eq_spec, ?_, ?_⟩
  · have hns : ¬ isSignificantShift
        ⟨"Q1", [⟨"a", 1, 1/2⟩, ⟨"b", 1, 1/2⟩], 0, 1/2, 1/2, []⟩
        ⟨"Q2", [⟨"a", 2, 1/2⟩, ⟨"b", 1, 1/4⟩, ⟨"c", 1, 1/4⟩], 0, 1/2, 1/2, []⟩ := by
      intro h
      rcases h with h | h
      · simp only [entropy_half_integer, entropy_two_equal] at h
        rw [show |(3/2 : ℝ) - 1| = 1/2 by
          rw [show (3/2 - 1 : ℝ) = 1/2 by norm_num]
          exact abs_of_pos (by norm_num)] at h
        exact absurd h (by norm_num)
      · exact h rfl
    rw [show detectPhaseShifts
        [⟨"Q1", [⟨"a", 1, 1/2⟩, ⟨"b", 1, 1/2⟩], 0, 1/2, 1/2, []⟩,
         ⟨"Q2", [⟨"a", 2, 1/2⟩, ⟨"b", 1, 1/4⟩, ⟨"c", 1, 1/4⟩], 0, 1/2, 1/2, []⟩] =
      detectPhaseShiftsGo
        ⟨"Q1", [⟨"a", 1, 1/2⟩, ⟨"b", 1, 1/2⟩], 0, 1/2, 1/2, []⟩
        [⟨"Q2", [⟨"a", 2, 1/2⟩, ⟨"b", 1, 1/4⟩, ⟨"c", 1, 1/4⟩], 0, 1/2, 1/2, []⟩] from rfl]
    rw [detectPhaseShiftsGo, if_neg hns, detectPhaseShiftsGo]
    rfl
  · have hsig : isSignificantShift
        ⟨"Full Year", [⟨"a", 1, 1/2⟩, ⟨"b", 1, 1/2⟩], 0, 1/2, 1/2, []⟩
        ⟨"Mid-Year", [⟨"c", 1, 1⟩], 0, 1/2, 1/2, []⟩ := by
      left
      show (1 : ℝ)/2 < |calculateGenreEntropy [⟨"c", 1, 1⟩] -
        calculateGenreEntropy [⟨"a", 1, 1/2⟩, ⟨"b", 1, 1/2⟩]|
      rw [entropy_single, entropy_two_equal]
      rw [show |(0 : ℝ) - 1| = 1 by
        rw [show (0 - 1 : ℝ) = -1 by norm_num, abs_neg, abs_one]]
      norm_num
    have hns2 : ¬ isSignificantShift
        ⟨"Mid-Year", [⟨"c", 1, 1⟩], 0, 1/2, 1/2, []⟩
        ⟨"Recent", [⟨"c", 1, 1⟩], 0, 1/2, 1/2, []⟩ := by
      intro h
      rcases h with h | h
      · rw [entropy_single, sub_self, abs_zero] at h
        exact absurd h (by norm_num)
      · exact h rfl
    rw [show detectPhaseShifts
        [⟨"Full Year", [⟨"a", 1, 1/2⟩, ⟨"b", 1, 1/2⟩], 0, 1/2, 1/2, []⟩,
         ⟨"Mid-Year", [⟨"c", 1, 1⟩], 0, 1/2, 1/2, []⟩,
         ⟨"Recent", [⟨"c", 1, 1⟩], 0, 1/2, 1/2, []⟩] =
      detectPhaseShiftsGo
        ⟨"Full Year", [⟨"a", 1, 1/2⟩, ⟨"b", 1, 1/2⟩], 0, 1/2, 1/2, []⟩
        [⟨"Mid-Year", [⟨"c", 1, 1⟩], 0, 1/2, 1/2, []⟩,
         ⟨"Recent", [⟨"c", 1, 1⟩], 0, 1/2, 1/2, []⟩] from rfl]
    rw [detectPhaseShiftsGo, if_pos hsig, detectPhaseShiftsGo, if_neg hns2,
      detectPhaseShiftsGo]
    rfl

theorem energyArcFrom_now_indep (clusters : List TimeRange) (timestamps : List String)
    (hts : ∀ s ∈ timestamps, s ≠ "") :
    ∀ (tracks : List SpotifyAudioFeatures) (i : ℕ), i + tracks.length ≤ timestamps.length →
      ∀ n1 n2 : String,
        energyArcFrom i timestamps n1 clusters tracks =
          energyArcFrom i timestamps n2 clusters tracks := by
  intro tracks
  induction tracks with
  | nil => intro i _ n1 n2; rfl
  | cons track rest ih =>
      intro i hlen n1 n2
      rw [energyArcFrom, energyArcFrom]
      have hi : i < timestamps.length := by
        simp only [List.length_cons] at hlen
        omega
      rcases h : timestamps.get? i with _ | s
      · exfalso
        rw [List.get?_eq_none] at h
        omega
      · have hne : s ≠ "" := hts s (List.get?_mem h)
        simp only [Option.getD_some]
        rw [jsOrS, if_neg hne, jsOrS, if_neg hne]
        rw [ih (i + 1) (by simp only [List.length_cons] at hlen; omega) n1 n2]

theorem length_filterMap_le' {α β : Type} (f : α → Option β) (l : List α) :
    (l.filterMap f).length ≤ l.length := by
  induction l with
  | nil => simp
  | cons a rest ih =>
      rw [List.filterMap_cons]
      cases f a with
      | none => simp only [List.length_cons]; omega
      | some b => simp only [List.length_cons]; omega

theorem calculateEmotionalProfile_now_indep (tracks : List SpotifyAudioFeatures)
    (timestamps : List String) (rawTrackIds : Option (List String))
    (featuresMap : Option (List (String × SpotifyAudioFeatures)))
    (hlen : tracks.length ≤ timestamps.length) (hts : ∀ s ∈ timestamps, s ≠ "")
    (n1 n2 : String) :
    calculateEmotionalProfile tracks timestamps rawTrackIds featuresMap n1 =
      calculateEmotionalProfile tracks timestamps rawTrackIds featuresMap n2 := by
  simp only [calculateEmotionalProfile, EmotionalProfile.mk.injEq, and_true, true_and]
  exact energyArcFrom_now_indep _ timestamps hts tracks 0 (by omega) n1 n2

/-- C9: profile building is deterministic and idempotent. The single
reachable clock read (the `timestamps[i] || new Date().toISOString()`
fallback in the energy arc) is modeled as the explicit `now` argument;
whenever every play event carries a nonempty timestamp, the output of
`buildListeningProfile` does not depend on `now` at all, so two
invocations on identical inputs yield identical `ListeningProfile`
values. -/
theorem buildListeningProfile_deterministic (data : ComprehensiveSpotifyData)
    (rangedTracks : RangedTrackData)
    (hts : ∀ p ∈ data.recentlyPlayed, p.played_at ≠ "") (now1 now2 : String) :
    buildListeningProfile data rangedTracks now1 =
      buildListeningProfile data rangedTracks now2 := by
  have h := calculateEmotionalProfile_now_indep
    (data.recentlyPlayed.filterMap fun p => jsGet data.audioFeatures p.track.id)
    (data.recentlyPlayed.map fun p => p.played_at)
    (some (data.recentlyPlayed.map fun p => p.track.id))
    (some data.audioFeatures)
    (by rw [List.length_map]; exact length_filterMap_le' _ _)
    (by intro s hs
        rw [List.mem_map] at hs
        obtain ⟨p, hp, hps⟩ := hs
        exact hps ▸ hts p hp)
    now1 now2
  simp only [buildListeningProfile]
  rw [h]

theorem buildListeningProfile_deterministic_witness :
    (∀ p ∈ (⟨[], [], [⟨⟨"t1", "Track One", [], 200000⟩, "2023-05-01T03:10:00.000Z"⟩],
        []⟩ : ComprehensiveSpotifyData).recentlyPlayed, p.played_at ≠ "") ∧
      buildListeningProfile
        ⟨[], [], [⟨⟨"t1", "Track One", [], 200000⟩, "2023-05-01T03:10:00.000Z"⟩], []⟩
        ⟨[], [], []⟩ "2024-01-01T00:00:00.000Z" =
      buildListeningProfile
        ⟨[], [], [⟨⟨"t1", "Track One", [], 200000⟩, "2023-05-01T03:10:00.000Z"⟩], []⟩
        ⟨[], [], []⟩ "2025-06-30T23:59:59.000Z" := by
  refine ⟨?_, buildListeningProfile_deterministic _ ⟨[], [], []⟩ ?_ _ _⟩ <;>
    · intro p hp
      simp only [List.mem_singleton] at hp
      subst hp
      decide
